import Mathlib

/-!
# HanaView HWB scanner — verification of the pattern-engine core

Shallow embedding of `src/backend/hwb_scanner.py` (classes `HWBAnalyzer` and
`HWBScanner`) and of the transactional cache replace in
`src/backend/hwb_data_manager.py` (`HWBDataManager._save_to_db`).

Conventions of the embedding:
* Trading dates are natural numbers (pandas `Timestamp`s are totally ordered;
  only order and +1-day arithmetic are used by the code).
* Prices and volumes are rationals.  The float arithmetic of the source is
  modeled as exact arithmetic; every branch condition of the source is a
  polynomial comparison except those against a rolling *standard deviation*
  (an irrational square root), which are decided exactly through the
  equivalent comparison of the underlying sample variance (see `sqrtLE`,
  `sqrtGE` below and the lemmas `sqrtLE_eq_true_iff` / `sqrtGE_eq_true_iff`).
* A pandas `NaN` entry (an indicator not yet defined) is `Option.none`;
  `pd.isna` tests are `Option` matches.  Comparisons with `NaN` are `false`,
  as in numpy.
* `uuid.uuid4()` identities are modeled by caller-supplied fresh numeric ids:
  setup ids are `idBase + bar index` and gap ids are the pair
  `(owning setup id, formation bar index)`; the freshness of `uuid4` across
  runs becomes an explicit freshness hypothesis on each analysis step.
* Dicts of the per-symbol JSON document become structures with the same
  field names (`open` is a Lean keyword, so that column is `open_`).
-/

set_option maxRecDepth 40000

namespace HWB

/-! ## Data model: price series (rows of `daily_prices` / `weekly_prices`) -/

/-- One daily OHLCV bar with its stored 200-period averages
(`daily_prices(symbol, date, o,h,l,c,volume, sma200, ema200)`);
`none` models a NULL / NaN average. -/
structure DailyBar where
  date : ℕ
  open_ : ℚ
  high : ℚ
  low : ℚ
  close : ℚ
  volume : ℚ
  sma200 : Option ℚ
  ema200 : Option ℚ
  deriving DecidableEq, Repr

/-- One weekly bar; only the fields the scanner reads (`close`, `sma200`)
are carried. -/
structure WeeklyBar where
  date : ℕ
  close : ℚ
  sma200 : Option ℚ
  deriving DecidableEq, Repr

/-! ## Data model: the per-symbol state document -/

/-- Lifecycle status strings of setups and gaps. -/
inductive EntStatus where
  | active
  | consumed
  | violated
  deriving DecidableEq, Repr

inductive SetupType where
  | PRIMARY
  | SECONDARY
  deriving DecidableEq, Repr

inductive Quality where
  | LOW
  | MEDIUM
  | HIGH
  deriving DecidableEq, Repr

inductive BreakoutConfidence where
  | HIGH
  | MEDIUM
  deriving DecidableEq, Repr

/-- A Rule-2 setup entry of the state document. -/
structure Setup where
  id : ℕ
  date : ℕ
  type : SetupType
  confidence : ℚ
  status : EntStatus
  weekly_deviation : Option ℚ
  deriving DecidableEq, Repr

/-- Gap ids: the pair (owning setup id, formation bar index) — a generation
event is unique per setup and formation bar, which models `uuid4`. -/
abbrev FvgId := ℕ × ℕ

/-- A fair-value-gap entry of the state document.  `volume_surge` and
`ma_deviation` are keys only the full detector writes (`none` elsewhere). -/
structure Fvg where
  id : FvgId
  setup_id : ℕ
  formation_date : ℕ
  gap_percentage : ℚ
  score : ℕ
  volume_surge : Option ℚ
  ma_deviation : Option ℚ
  quality : Quality
  lower_bound : ℚ
  upper_bound : ℚ
  status : EntStatus
  violated_date : Option ℕ
  deriving DecidableEq, Repr

/-- A signal: the merged dict `{**fvg, **breakout}` plus the composite
`score`.  The fields coming from the gap keep the gap's values. -/
structure Signal where
  id : FvgId
  setup_id : ℕ
  formation_date : ℕ
  gap_percentage : ℚ
  fvg_score : ℕ
  quality : Quality
  lower_bound : ℚ
  upper_bound : ℚ
  breakout_date : ℕ
  breakout_price : ℚ
  resistance_price : ℚ
  breakout_score : ℕ
  confidence : BreakoutConfidence
  score : ℤ
  deriving DecidableEq, Repr

/-- The persisted per-symbol state document
`{symbol, last_updated, setups, fvgs, signals}`; `last_updated` is the
date part of the saved timestamp. -/
structure SymbolState where
  symbol : String
  last_updated : ℕ
  setups : List Setup
  fvgs : List Fvg
  signals : List Signal
  deriving DecidableEq, Repr

/-! ## Module-level configuration constants (env defaults) -/

def WEEKLY_TREND_THRESHOLD : ℚ := 0.0
def SETUP_LOOKBACK_DAYS : ℕ := 30
def INITIAL_SCAN_MIN_HISTORY_DAYS : ℕ := 1000
def FVG_MIN_GAP_PERCENTAGE : ℚ := 0.001
def FVG_MAX_SEARCH_DAYS : ℕ := 20
def MIN_FVG_SCORE : ℕ := 3
def MIN_BREAKOUT_SCORE : ℕ := 5

/-- `HWBAnalyzer._adaptive_parameters()` for the fixed `TRENDING` regime. -/
def params_fvg_search_days : ℕ := 20
def params_breakout_threshold : ℚ := 0.003

/-! ## Series helpers (pandas primitives) -/

/-- `Series.rolling(w).mean()` at position `i` (`min_periods = w`):
the mean of entries `i+1-w .. i`, NaN (`none`) with fewer than `w` entries. -/
def rollingMean (xs : List ℚ) (w : ℕ) (i : ℕ) : Option ℚ :=
  if w ≤ i + 1 ∧ i < xs.length then
    some (((xs.drop (i + 1 - w)).take w).sum / (w : ℚ))
  else none

/-- `close.pct_change()` at position `i`: `close i / close (i-1) - 1`,
NaN at position 0. -/
def pctChangeAt (df : List DailyBar) (i : ℕ) : Option ℚ :=
  match i, df.get? i with
  | j + 1, some b => (df.get? j).map (fun p => b.close / p.close - 1)
  | _, _ => none

/-- `close.pct_change(5)` at position `i`. -/
def pctChange5At (df : List DailyBar) (i : ℕ) : Option ℚ :=
  match df.get? i, df.get? (i - 5) with
  | some b, some p => if 5 ≤ i then some (b.close / p.close - 1) else none
  | _, _ => none

/-- The consecutive percent changes of a window of bars (the values
`close.pct_change()` takes inside that window after its leading NaN). -/
def pctSeq : List DailyBar → List ℚ
  | [] => []
  | [_] => []
  | a :: b :: rest => (b.close / a.close - 1) :: pctSeq (b :: rest)

/-- The sample variance (ddof = 1, as pandas) of the 20-entry window of
`close.pct_change()` ending at `i`; the rolling *std* of the source is the
real square root of this value.  NaN (`none`) while the window holds a NaN,
i.e. before position 20.  For `20 ≤ i < length` the window's 20 percent
changes are the consecutive changes over bars `i-20 .. i`. -/
def pctVar20 (df : List DailyBar) (i : ℕ) : Option ℚ :=
  if 20 ≤ i ∧ i < df.length then
    let vals := pctSeq ((df.drop (i - 20)).take 21)
    if vals.length = 20 then
      let μ := vals.sum / 20
      some ((vals.map (fun x => (x - μ) ^ 2)).sum / 19)
    else none
  else none

/-- Decides `√v ≤ r` for the (nonnegative) variance `v`. -/
def sqrtLE (v r : ℚ) : Bool := 0 ≤ r && v ≤ r ^ 2

/-- Decides `√v ≥ r` for the (nonnegative) variance `v`. -/
def sqrtGE (v r : ℚ) : Bool := r ≤ 0 || r ^ 2 ≤ v

/-- Decides `√v < r` for the (nonnegative) variance `v`. -/
def sqrtLT (v r : ℚ) : Bool := 0 < r && v < r ^ 2

/-- Decides `√v > r` for the (nonnegative) variance `v`. -/
def sqrtGT (v r : ℚ) : Bool := r < 0 || r ^ 2 < v

/-- `pandas.Index.searchsorted(d)` (side = `left`) on the date index of a
sorted series: the number of strictly earlier dates. -/
def searchsortedD (df : List DailyBar) (d : ℕ) : ℕ :=
  df.countP (fun b => b.date < d)

/-- `pandas.Index.get_loc(d)`: the position of date `d`; `none` is the
`KeyError` case. -/
def getLocD (df : List DailyBar) (d : ℕ) : Option ℕ :=
  df.findIdx? (fun b => b.date = d)

/-- Least element of a list of rationals (`Series.min()`); `none` on empty. -/
def qminList (l : List ℚ) : Option ℚ :=
  match l with
  | [] => none
  | x :: xs => some (xs.foldl min x)

/-- Greatest element of a list of rationals (`Series.max()`); `none` on empty. -/
def qmaxList (l : List ℚ) : Option ℚ :=
  match l with
  | [] => none
  | x :: xs => some (xs.foldl max x)

/-- `Series.idxmin()` on the lows of a slice: the *date* of the first bar
attaining the minimal low. -/
def idxminLowDate (l : List DailyBar) : Option ℕ :=
  (qminList (l.map (·.low))).bind
    (fun m => (l.find? (fun b => b.low = m)).map (·.date))

/-- `np.median` of four values: the mean of the two middle ones. -/
def median4 (a b c d : ℚ) : ℚ :=
  match List.insertionSort (· ≤ ·) [a, b, c, d] with
  | [_, x, y, _] => (x + y) / 2
  | _ => 0

/-! ## `HWBAnalyzer` — Rule ① trend filter -/

/-- Core of the weekly-trend test, on a list of weekly bars (the code applies
it to the bars at or before the check date): `False` while no weekly SMA200
exists, else the deviation test on the last bar. -/
def weeklyTrendCore (hist : List WeeklyBar) : Bool :=
  if hist.isEmpty then false
  else if hist.all (fun b => b.sma200 = none) then false
  else
    match hist.getLast? with
    | none => false
    | some latest =>
      match latest.sma200 with
      | none => false
      | some s =>
        if s = 0 then false
        else decide (WEEKLY_TREND_THRESHOLD ≤ (latest.close - s) / s)

/-- `HWBAnalyzer.check_weekly_trend_at_date`: the weekly trend filter as of
`check_date`, using only weekly bars dated `≤ check_date`. -/
def check_weekly_trend_at_date (df_weekly : List WeeklyBar) (check_date : ℕ) : Bool :=
  if df_weekly.isEmpty then false
  else weeklyTrendCore (df_weekly.filter (fun b => b.date ≤ check_date))

/-- `HWBAnalyzer.optimized_rule1`: the trend filter on the latest weekly bar. -/
def optimized_rule1 (df_weekly : List WeeklyBar) : Bool :=
  if df_weekly.isEmpty then false
  else if df_weekly.all (fun b => b.sma200 = none) then false
  else
    match df_weekly.getLast? with
    | none => false
    | some latest =>
      match latest.sma200 with
      | none => false
      | some s =>
        if s = 0 then false
        else decide (WEEKLY_TREND_THRESHOLD ≤ (latest.close - s) / s)

/-- `HWBAnalyzer._get_weekly_deviation_at_date` (recorded on each setup). -/
def _get_weekly_deviation_at_date (df_weekly : List WeeklyBar) (check_date : ℕ) :
    Option ℚ :=
  match (df_weekly.filter (fun b => b.date ≤ check_date)).getLast? with
  | none => none
  | some latest =>
    match latest.sma200 with
    | none => none
    | some s => if s = 0 then none else some ((latest.close - s) / s)

/-! ## `HWBAnalyzer` — Rule ② setup detection -/

/-- `(high - low).rolling(14).mean()` at position `i` (the ATR proxy of
`optimized_rule2_setups`). -/
def atrAt (df : List DailyBar) (i : ℕ) : Option ℚ :=
  rollingMean (df.map (fun b => b.high - b.low)) 14 i

/-- The per-day body of the `optimized_rule2_setups` loop: the weekly filter
at the day's date, the MA-zone computation and the PRIMARY/SECONDARY
classification.  Returns the setup type and confidence. -/
def rule2ClassifyAt (df_daily : List DailyBar) (df_weekly : List WeeklyBar)
    (i : ℕ) : Option (SetupType × ℚ) :=
  match df_daily.get? i with
  | none => none
  | some row =>
    if check_weekly_trend_at_date df_weekly row.date then
      match row.sma200, row.ema200 with
      | some sma, some ema =>
        let zone_width0 := |sma - ema|
        let zone_width :=
          match atrAt df_daily i with
          | some a =>
            if 0 < a then max zone_width0 (row.close * (a / row.close) * 0.5)
            else zone_width0
          | none => zone_width0
        let zone_upper := max sma ema + zone_width * 0.2
        let zone_lower := min sma ema - zone_width * 0.2
        if zone_lower ≤ row.open_ ∧ row.open_ ≤ zone_upper ∧
            zone_lower ≤ row.close ∧ row.close ≤ zone_upper then
          some (SetupType.PRIMARY, 0.85)
        else if (zone_lower ≤ row.open_ ∧ row.open_ ≤ zone_upper) ∨
            (zone_lower ≤ row.close ∧ row.close ≤ zone_upper) then
          let body_center := (row.open_ + row.close) / 2
          if zone_lower ≤ body_center ∧ body_center ≤ zone_upper then
            some (SetupType.SECONDARY, 0.65)
          else none
        else none
      | _, _ => none
    else none

/-- Build the setup record for day `i` when the classification succeeds;
the `uuid4` id is modeled as `idBase + i`. -/
def rule2SetupAt (df_daily : List DailyBar) (df_weekly : List WeeklyBar)
    (idBase : ℕ) (i : ℕ) : Option Setup :=
  match df_daily.get? i with
  | none => none
  | some row =>
    (rule2ClassifyAt df_daily df_weekly i).map (fun tc =>
      { id := idBase + i
        date := row.date
        type := tc.1
        confidence := tc.2
        status := EntStatus.active
        weekly_deviation := _get_weekly_deviation_at_date df_weekly row.date })

/-- `HWBAnalyzer.optimized_rule2_setups`: scan-range selection plus the
per-day classification.  `full_scan = true` starts at
`INITIAL_SCAN_MIN_HISTORY_DAYS`; an explicit `scan_start_date` is resolved
with `searchsorted`; the default is the last `SETUP_LOOKBACK_DAYS` days. -/
def optimized_rule2_setups (df_daily : List DailyBar) (df_weekly : List WeeklyBar)
    (full_scan : Bool) (scan_start_date : Option ℕ) (idBase : ℕ) : List Setup :=
  let scan_start_index :=
    if full_scan then max 0 INITIAL_SCAN_MIN_HISTORY_DAYS
    else
      match scan_start_date with
      | some d => searchsortedD df_daily d
      | none => df_daily.length - SETUP_LOOKBACK_DAYS
  if df_daily.length ≤ scan_start_index then []
  else
    (List.range' scan_start_index (df_daily.length - scan_start_index)).filterMap
      (rule2SetupAt df_daily df_weekly idBase)

/-! ## `HWBAnalyzer` — Rule ③ FVG detection -/

/-- `quality`: HIGH at score ≥ 6, MEDIUM at ≥ 4, else LOW. -/
def fvgQuality (score : ℕ) : Quality :=
  if 6 ≤ score then Quality.HIGH else if 4 ≤ score then Quality.MEDIUM else Quality.LOW

/-- Volume-surge points of the FVG score. -/
def fvgVolumePts (volume_surge : ℚ) : ℕ :=
  if 1.5 < volume_surge then 2 else if 1.2 < volume_surge then 1 else 0

/-- Decides `dev ≤ k * min (0.05 + 2*std, 0.10)` where `std = √v` and
`k > 0`: equivalently `dev ≤ k * 0.10` and `std ≥ (dev / k - 0.05) / 2`. -/
def devLEDynThr (dev v k : ℚ) : Bool :=
  decide (dev ≤ k * 0.10) && sqrtGE v ((dev / k - 0.05) / 2)

/-- MA-proximity points: the comparison of `ma_deviation` against the
volatility-scaled dynamic threshold `min (0.05 + volatility*2, 0.10)`,
at factors 0.5 / 1 / 1.5; no points while the volatility is NaN. -/
def fvgProximityPts (dev : ℚ) (var : Option ℚ) : ℕ :=
  match var with
  | none => 0
  | some v =>
    if devLEDynThr dev v (1/2) then 3
    else if devLEDynThr dev v 1 then 2
    else if devLEDynThr dev v (3/2) then 1
    else 0

/-- The body of the `optimized_fvg_detection` loop at index `i`
(`candle_1 = iloc[i-2]`, `candle_3 = iloc[i]`): the gap test, the tiered
score and the built gap record.  The gap id is `(setup id, i)`. -/
def fvgAt (df_daily : List DailyBar) (setup : Setup) (i : ℕ) : Option Fvg :=
  match df_daily.get? (i - 2), df_daily.get? i with
  | some candle_1, some candle_3 =>
    if candle_3.low ≤ candle_1.high then none
    else
      let gap_percentage := (candle_3.low - candle_1.high) / candle_1.high
      if gap_percentage < FVG_MIN_GAP_PERCENTAGE then none
      else
        let gapPts : ℕ :=
          if 0.005 < gap_percentage then 3
          else if 0.002 < gap_percentage then 2
          else 1
        let volume_surge : ℚ :=
          match rollingMean (df_daily.map (·.volume)) 20 i with
          | some m => if 0 < m then candle_3.volume / m else 1
          | none => 1
        -- NaN in `sma200`/`ema200` propagates through `ma_center`, so the
        -- proximity branch engages only when both averages are defined and
        -- their mean is positive.
        let ma_dev : Option ℚ :=
          match candle_3.sma200, candle_3.ema200 with
          | some s, some e =>
            let ma_center := (s + e) / 2
            if 0 < ma_center then
              some (|(candle_3.open_ + candle_3.close) / 2 - ma_center| / ma_center)
            else none
          | _, _ => none
        let proxPts : ℕ :=
          match ma_dev with
          | some dev => fvgProximityPts dev (pctVar20 df_daily i)
          | none => 0
        let fvg_score := gapPts + fvgVolumePts volume_surge + proxPts
        if MIN_FVG_SCORE ≤ fvg_score then
          some { id := (setup.id, i)
                 setup_id := setup.id
                 formation_date := candle_3.date
                 gap_percentage := gap_percentage
                 score := fvg_score
                 volume_surge := some volume_surge
                 ma_deviation := ma_dev
                 quality := fvgQuality fvg_score
                 lower_bound := candle_1.high
                 upper_bound := candle_3.low
                 status := EntStatus.active
                 violated_date := none }
        else none
  | _, _ => none

/-- `HWBAnalyzer.optimized_fvg_detection`: scan `setup_idx+2 .. search_end-1`
and sort the found gaps by score descending (`sorted(..., reverse=True)` is
stable; so is insertion sort). -/
def optimized_fvg_detection (df_daily : List DailyBar) (setup : Setup) : List Fvg :=
  match getLocD df_daily setup.date with
  | none => []
  | some setup_idx =>
    let search_end := min (setup_idx + params_fvg_search_days) (df_daily.length - 1)
    List.insertionSort (fun f g => g.score ≤ f.score)
      ((List.range' (setup_idx + 2) (search_end - (setup_idx + 2))).filterMap
        (fvgAt df_daily setup))

/-! ## `HWBAnalyzer` — Rule ④ breakout detection -/

/-- Either terminal outcome of a breakout check (the two dict shapes the
source returns). -/
inductive BreakoutResult where
  | violated (violated_date : ℕ)
  | breakout (breakout_date : ℕ) (breakout_price : ℚ) (resistance_price : ℚ)
      (breakout_score : ℕ) (confidence : BreakoutConfidence)
  deriving DecidableEq, Repr

/-- The four resistance levels and their median over a non-empty slice:
max high, max close, VWAP (mean close when total volume is 0), pivot. -/
def computeResistance (rd : List DailyBar) : Option ℚ :=
  match qmaxList (rd.map (·.high)), qmaxList (rd.map (·.close)),
      qminList (rd.map (·.low)), rd.getLast? with
  | some maxHigh, some maxClose, some minLow, some lastBar =>
    let volSum := (rd.map (·.volume)).sum
    let vwap :=
      if 0 < volSum then ((rd.map (fun b => b.close * b.volume)).sum) / volSum
      else ((rd.map (·.close)).sum) / (rd.length : ℚ)
    let pivot := (maxHigh + minLow + lastBar.close) / 3
    some (median4 maxHigh maxClose vwap pivot)
  | _, _, _, _ => none

/-- `current['close'] > main_resistance * (1 + breakout_threshold)` where
`breakout_threshold = max (0.003, min (0.01, volatility * 3))` and the
volatility is the real square root of the sample variance `var`.
`none` models the NaN window: Python's `min(0.01, nan)` keeps `0.01`, so the
threshold is `0.01`.  For `0.001 < std < 1/300` the threshold is `3*std` and
the comparison is decided through the variance. -/
def breakoutPriceCond (close resistance : ℚ) (var : Option ℚ) : Bool :=
  match var with
  | none => decide (resistance * (1 + 0.01) < close)
  | some v =>
    if sqrtLE v 0.001 then decide (resistance * (1 + 0.003) < close)
    else if sqrtGE v (1/300) then decide (resistance * (1 + 0.01) < close)
    else
      if resistance = 0 then decide (0 < close)
      else if 0 < resistance then sqrtLT v ((close - resistance) / (3 * resistance))
      else sqrtGT v ((close - resistance) / (3 * resistance))

/-- The body of the breakout scan at index `i`: the three conditions, the
score `3/2/1`, and the result on the first bar reaching
`MIN_BREAKOUT_SCORE`. -/
def breakoutScanAt (df_daily : List DailyBar) (main_resistance : ℚ) (i : ℕ) :
    Option BreakoutResult :=
  match df_daily.get? i with
  | none => none
  | some current =>
    let cond_price := breakoutPriceCond current.close main_resistance (pctVar20 df_daily i)
    let cond_volume :=
      match rollingMean (df_daily.map (·.volume)) 20 i with
      | some m => decide (m * 1.2 < current.volume)
      | none => false
    let cond_momentum :=
      match pctChange5At df_daily i with
      | some p => decide (0 < p)
      | none => false
    let breakout_score :=
      (if cond_price then 3 else 0) + (if cond_volume then 2 else 0) +
        (if cond_momentum then 1 else 0)
    if MIN_BREAKOUT_SCORE ≤ breakout_score then
      some (BreakoutResult.breakout current.date current.close main_resistance
        breakout_score
        (if 7 ≤ breakout_score then BreakoutConfidence.HIGH else BreakoutConfidence.MEDIUM))
    else none

/-- `HWBAnalyzer.optimized_breakout_detection_all_periods`: resistance over
the bounded window before the gap's formation bar, the violation check on
every low from the formation bar onward (returned *before* any breakout
scan), then the forward scan from `fvg_idx + 1` to the end of the series. -/
def optimized_breakout_detection_all_periods (df_daily : List DailyBar)
    (setup : Setup) (fvg : Fvg) : Option BreakoutResult :=
  match getLocD df_daily setup.date, getLocD df_daily fvg.formation_date with
  | some setup_idx, some fvg_idx =>
    let lookback_window := min 20 (fvg_idx - setup_idx)
    let lo := fvg_idx - lookback_window
    let resistance_data := (df_daily.drop lo).take (fvg_idx - lo)
    match computeResistance resistance_data with
    | none => none
    | some main_resistance =>
      let post_fvg_data := df_daily.drop fvg_idx
      match qminList (post_fvg_data.map (·.low)) with
      | some m =>
        if m < fvg.lower_bound * 0.98 then
          (idxminLowDate post_fvg_data).map BreakoutResult.violated
        else
          (List.range' (fvg_idx + 1) (df_daily.length - (fvg_idx + 1))).findSome?
            (breakoutScanAt df_daily main_resistance)
      | none =>
        (List.range' (fvg_idx + 1) (df_daily.length - (fvg_idx + 1))).findSome?
          (breakoutScanAt df_daily main_resistance)
  | _, _ => none

/-! ## `HWBScanner` — range-restricted detectors of the differential path -/

/-- `HWBScanner._detect_fvg_in_range`: the incremental-mode gap detector.
Note its score is `1 if gap_percentage > 0.001 else 0`, checked against
`MIN_FVG_SCORE`. -/
def _detect_fvg_in_range (df_daily : List DailyBar) (setup : Setup)
    (start_idx end_idx : ℕ) : List Fvg :=
  (List.range' start_idx (end_idx - start_idx)).filterMap (fun i =>
    if i < 2 then none
    else
      match df_daily.get? (i - 2), df_daily.get? i with
      | some candle_1, some candle_3 =>
        if candle_3.low ≤ candle_1.high then none
        else
          let gap_percentage := (candle_3.low - candle_1.high) / candle_1.high
          if gap_percentage < FVG_MIN_GAP_PERCENTAGE then none
          else
            let fvg_score : ℕ := if 0.001 < gap_percentage then 1 else 0
            if MIN_FVG_SCORE ≤ fvg_score then
              some { id := (setup.id, i)
                     setup_id := setup.id
                     formation_date := candle_3.date
                     gap_percentage := gap_percentage
                     score := fvg_score
                     volume_surge := none
                     ma_deviation := none
                     quality := Quality.MEDIUM
                     lower_bound := candle_1.high
                     upper_bound := candle_3.low
                     status := EntStatus.active
                     violated_date := none }
            else none
      | _, _ => none)

/-- `HWBScanner._check_breakout_in_range`: the incremental-mode breakout
check.  Resistance is only the max high of the bounded window before the
gap's formation bar; the scan over `start_idx .. end_idx-1` returns a
breakout on the first close above `resistance * 1.003`.  (It has no
violation branch.) -/
def _check_breakout_in_range (df_daily : List DailyBar) (setup : Setup) (fvg : Fvg)
    (start_idx end_idx : ℕ) : Option BreakoutResult :=
  match getLocD df_daily setup.date, getLocD df_daily fvg.formation_date with
  | some setup_idx, some fvg_idx =>
    let lookback_window := min 20 (fvg_idx - setup_idx)
    let lo := fvg_idx - lookback_window
    let resistance_data := (df_daily.drop lo).take (fvg_idx - lo)
    match qmaxList (resistance_data.map (·.high)) with
    | none => none
    | some main_resistance =>
      (List.range' start_idx (end_idx - start_idx)).findSome? (fun i =>
        (df_daily.get? i).bind (fun current =>
          if main_resistance * 1.003 < current.close then
            some (BreakoutResult.breakout current.date current.close main_resistance 6
              BreakoutConfidence.MEDIUM)
          else none))
  | _, _ => none

/-! ## `HWBScanner` — signal construction and summaries -/

/-- `HWBScanner._calculate_signal_score`.  Neither dict shape it receives
carries a `setup_confidence` key, so `get('setup_confidence', 0.5)` always
yields the default; `breakout_score` is present exactly on merged signals.
`int()` truncates, and the operand is nonnegative, so this is the floor. -/
def _calculate_signal_score (score : ℕ) (breakout_score : Option ℕ) : ℤ :=
  let setup_score : ℚ := 0.5 * 35
  let fvg_sc : ℚ := ((score : ℚ) / 10) * 40
  let breakout_sc : ℚ :=
    match breakout_score with
    | some b => ((b : ℚ) / 8) * 30
    | none => 0
  ⌊min (setup_score + fvg_sc + breakout_sc) 100⌋

/-- `signal = {**fvg, **breakout}` followed by
`signal['score'] = _calculate_signal_score(signal)`. -/
def mkSignal (fvg : Fvg) (bd : ℕ) (bp rp : ℚ) (bs : ℕ)
    (conf : BreakoutConfidence) : Signal :=
  { id := fvg.id
    setup_id := fvg.setup_id
    formation_date := fvg.formation_date
    gap_percentage := fvg.gap_percentage
    fvg_score := fvg.score
    quality := fvg.quality
    lower_bound := fvg.lower_bound
    upper_bound := fvg.upper_bound
    breakout_date := bd
    breakout_price := bp
    resistance_price := rp
    breakout_score := bs
    confidence := conf
    score := _calculate_signal_score fvg.score (some bs) }

inductive SignalType where
  | signal
  | candidate
  deriving DecidableEq, Repr

/-- One record of the per-symbol result list (`_create_summary_from_data`):
signal rows carry `signal_date`, candidate rows carry `fvg_date`
(`none` models the absent dict key). -/
structure SummaryRecord where
  symbol : String
  signal_type : SignalType
  score : ℤ
  signal_date : Option ℕ
  fvg_date : Option ℕ
  deriving DecidableEq, Repr

/-- `HWBScanner._create_summary_from_data`: one record per signal, one per
active HIGH/MEDIUM gap. -/
def _create_summary_from_data (symbol : String) (signals : List Signal)
    (fvgs : List Fvg) : List SummaryRecord :=
  signals.map (fun s =>
    { symbol := symbol
      signal_type := SignalType.signal
      score := s.score
      signal_date := some s.breakout_date
      fvg_date := none })
  ++ fvgs.filterMap (fun f =>
      if f.status = EntStatus.active ∧ (f.quality = Quality.HIGH ∨ f.quality = Quality.MEDIUM) then
        some { symbol := symbol
               signal_type := SignalType.candidate
               score := _calculate_signal_score f.score none
               signal_date := none
               fvg_date := some f.formation_date }
      else none)

/-- `HWBScanner._create_summary_from_existing`. -/
def _create_summary_from_existing (st : SymbolState) : List SummaryRecord :=
  _create_summary_from_data st.symbol st.signals st.fvgs

/-! ## `HWBScanner._full_analysis` -/

/-- The inner gap loop of `_full_analysis` for one setup: returns the gaps
appended to `all_fvgs`, the signal of the first breakout (the `break` drops
the breaking gap before the trailing `all_fvgs.append` and abandons the
remaining gaps), and the updated `consumed_fvgs` set. -/
def processFvgsFull (df_daily : List DailyBar) (setup : Setup) :
    List Fvg → List FvgId → List Fvg × Option Signal × List FvgId
  | [], consumedF => ([], none, consumedF)
  | fvg :: rest, consumedF =>
    if fvg.id ∈ consumedF then
      let out := processFvgsFull df_daily setup rest consumedF
      ({ fvg with status := EntStatus.consumed } :: out.1, out.2.1, out.2.2)
    else
      match optimized_breakout_detection_all_periods df_daily setup fvg with
      | some (BreakoutResult.breakout bd bp rp bs conf) =>
        ([], some (mkSignal fvg bd bp rp bs conf), consumedF ++ [fvg.id])
      | some (BreakoutResult.violated vd) =>
        let out := processFvgsFull df_daily setup rest consumedF
        ({ fvg with status := EntStatus.violated, violated_date := some vd } :: out.1,
          out.2.1, out.2.2)
      | none =>
        let out := processFvgsFull df_daily setup rest consumedF
        ({ fvg with status := EntStatus.active } :: out.1, out.2.1, out.2.2)

/-- The mutable collections of the `_full_analysis` setup loop. -/
structure FullAcc where
  consumed_setups : List ℕ
  consumed_fvgs : List FvgId
  setups_out : List Setup
  all_fvgs : List Fvg
  all_signals : List Signal
  deriving DecidableEq, Repr

/-- The setup loop of `_full_analysis`: per setup, gap detection then the
per-gap breakout loop; a breakout consumes the setup, records one signal and
stops the gap loop for that setup. -/
def processSetupsFull (df_daily : List DailyBar) :
    List Setup → FullAcc → FullAcc
  | [], acc => acc
  | setup :: rest, acc =>
    if setup.id ∈ acc.consumed_setups then
      processSetupsFull df_daily rest
        { acc with
          setups_out := acc.setups_out ++ [{ setup with status := EntStatus.consumed }] }
    else
      let fvgs := optimized_fvg_detection df_daily setup
      let out := processFvgsFull df_daily setup fvgs acc.consumed_fvgs
      match out.2.1 with
      | some sig =>
        processSetupsFull df_daily rest
          { consumed_setups := acc.consumed_setups ++ [setup.id]
            consumed_fvgs := out.2.2
            setups_out := acc.setups_out ++ [{ setup with status := EntStatus.consumed }]
            all_fvgs := acc.all_fvgs ++ out.1
            all_signals := acc.all_signals ++ [sig] }
      | none =>
        processSetupsFull df_daily rest
          { acc with
            consumed_fvgs := out.2.2
            setups_out := acc.setups_out ++ [{ setup with status := EntStatus.active }]
            all_fvgs := acc.all_fvgs ++ out.1 }

/-- `HWBScanner._full_analysis`: the first-encounter full-history scan.
`none` means nothing is saved (no setups, or neither a signal nor an active
gap). -/
def _full_analysis (symbol : String) (df_daily : List DailyBar)
    (df_weekly : List WeeklyBar) (today idBase : ℕ) : Option SymbolState :=
  let setups := optimized_rule2_setups df_daily df_weekly true none idBase
  if setups.isEmpty then none
  else
    let acc := processSetupsFull df_daily setups ⟨[], [], [], [], []⟩
    if acc.all_signals.isEmpty && acc.all_fvgs.all (fun f => !(f.status == EntStatus.active)) then
      none
    else
      some { symbol := symbol
             last_updated := today
             setups := acc.setups_out
             fvgs := acc.all_fvgs
             signals := acc.all_signals }

/-! ## `HWBScanner._differential_analysis` -/

/-- The exceptions that can escape `_differential_analysis`:
`lookupFailure` is the `KeyError` of `Index.get_loc` on a recorded date no
longer present; `indexError` the `iloc[-1]` of an empty frame. -/
inductive AnalysisError where
  | lookupFailure
  | indexError
  deriving DecidableEq, Repr

instance {ε α : Type} [DecidableEq ε] [DecidableEq α] : DecidableEq (Except ε α) :=
  fun a b =>
    match a, b with
    | .error e, .error e' =>
      if h : e = e' then .isTrue (by rw [h]) else .isFalse (by simp [h])
    | .ok x, .ok y =>
      if h : x = y then .isTrue (by rw [h]) else .isFalse (by simp [h])
    | .error _, .ok _ => .isFalse (by simp)
    | .ok _, .error _ => .isFalse (by simp)

/-- Greatest element of a list of dates (`max(...)`); `none` on empty. -/
def natMaxList (l : List ℕ) : Option ℕ :=
  match l with
  | [] => none
  | x :: xs => some (xs.foldl max x)

/-- Phase 1 of `_differential_analysis`: for each still-active setup, search
the part of its window beyond both its last found gap and the last analyzed
date.  Carries (complete gap list, new gaps found, updated flag); the bare
`get_loc` on the setup date raises on a missing date. -/
def diffFvgSearch (df_daily : List DailyBar) (last_analyzed : ℕ) :
    List Setup → List Fvg → List Fvg → Bool →
    Except AnalysisError (List Fvg × List Fvg × Bool)
  | [], fvgsAcc, newAcc, upd => .ok (fvgsAcc, newAcc, upd)
  | setup :: rest, fvgsAcc, newAcc, upd =>
    match getLocD df_daily setup.date with
    | none => .error AnalysisError.lookupFailure
    | some setup_idx =>
      let setup_fvgs := fvgsAcc.filter (fun f => f.setup_id == setup.id)
      let search_start0 :=
        match natMaxList (setup_fvgs.map (·.formation_date)) with
        | some last_fvg_date => searchsortedD df_daily (last_fvg_date + 1)
        | none => setup_idx + 2
      let search_end := min (setup_idx + FVG_MAX_SEARCH_DAYS) (df_daily.length - 1)
      let new_data_start := searchsortedD df_daily (last_analyzed + 1)
      let search_start := max search_start0 new_data_start
      if search_end ≤ search_start then
        diffFvgSearch df_daily last_analyzed rest fvgsAcc newAcc upd
      else
        let new_fvgs := _detect_fvg_in_range df_daily setup search_start search_end
        if new_fvgs.isEmpty then
          diffFvgSearch df_daily last_analyzed rest fvgsAcc newAcc upd
        else
          diffFvgSearch df_daily last_analyzed rest (fvgsAcc ++ new_fvgs)
            (newAcc ++ new_fvgs) true

/-- `setup['status'] = 'consumed'` on the setup object `next(...)` found —
the first list entry with that id. -/
def consumeFirstSetup : List Setup → ℕ → List Setup
  | [], _ => []
  | s :: rest, sid =>
    if s.id = sid then { s with status := EntStatus.consumed } :: rest
    else s :: consumeFirstSetup rest sid

/-- Phase 2 of `_differential_analysis`: the breakout check over the active
gaps.  A breakout cascades (consume the owning setup and all its sibling
gaps), records one signal and `break`s out of the whole loop; a violated
result (dead branch of `_check_breakout_in_range`) marks the gap; the bare
`get_loc` on the gap's formation date raises on a missing date. -/
def diffBreakoutLoop (df_daily : List DailyBar) (last_analyzed : ℕ) :
    List Fvg → List Setup → List Fvg → List Signal → Bool →
    Except AnalysisError (List Setup × List Fvg × List Signal × Bool)
  | [], setups, fvgs, signals, upd => .ok (setups, fvgs, signals, upd)
  | fvg :: rest, setups, fvgs, signals, upd =>
    match setups.find? (fun s => s.id == fvg.setup_id) with
    | none => diffBreakoutLoop df_daily last_analyzed rest setups fvgs signals upd
    | some setup =>
      if setup.status = EntStatus.consumed then
        diffBreakoutLoop df_daily last_analyzed rest setups fvgs signals upd
      else
        match getLocD df_daily fvg.formation_date with
        | none => .error AnalysisError.lookupFailure
        | some fvg_idx =>
          let new_data_start := searchsortedD df_daily (last_analyzed + 1)
          let check_start := max (fvg_idx + 1) new_data_start
          if df_daily.length ≤ check_start then
            diffBreakoutLoop df_daily last_analyzed rest setups fvgs signals upd
          else
            match _check_breakout_in_range df_daily setup fvg check_start df_daily.length with
            | some (BreakoutResult.breakout bd bp rp bs conf) =>
              .ok (consumeFirstSetup setups fvg.setup_id,
                fvgs.map (fun f =>
                  if f.setup_id == setup.id then { f with status := EntStatus.consumed } else f),
                signals ++ [mkSignal fvg bd bp rp bs conf], true)
            | some (BreakoutResult.violated vd) =>
              diffBreakoutLoop df_daily last_analyzed rest setups
                (fvgs.map (fun f =>
                  if f.id == fvg.id then
                    { f with status := EntStatus.violated, violated_date := some vd }
                  else f))
                signals true
            | none =>
              diffBreakoutLoop df_daily last_analyzed rest setups fvgs signals upd

/-- `HWBScanner._differential_analysis`: returns the state document as it
stands after the run, the `updated` flag (nothing is persisted when it is
false) and the returned per-symbol summary.  With no bar strictly beyond
`last_updated` it returns at once, touching nothing. -/
def _differential_analysis (df_daily : List DailyBar) (df_weekly : List WeeklyBar)
    (st : SymbolState) (today idBase : ℕ) :
    Except AnalysisError (SymbolState × Bool × List SummaryRecord) :=
  let active_setups := st.setups.filter (fun s => s.status == EntStatus.active)
  let active_fvgs := st.fvgs.filter (fun f => f.status == EntStatus.active)
  let last_analyzed_date := st.last_updated
  match df_daily.getLast? with
  | none => .error AnalysisError.indexError
  | some lastBar =>
    if lastBar.date ≤ last_analyzed_date then
      .ok (st, false, _create_summary_from_existing st)
    else do
      let (fvgs1, new_fvgs, upd1) ←
        diffFvgSearch df_daily last_analyzed_date active_setups st.fvgs [] false
      let all_active_fvgs := active_fvgs ++ new_fvgs
      let (setups2, fvgs2, signals2, upd2) ←
        diffBreakoutLoop df_daily last_analyzed_date all_active_fvgs st.setups fvgs1
          st.signals upd1
      let (setups3, upd3) :=
        if active_setups.isEmpty || setups2.all (fun s => s.status == EntStatus.consumed) then
          let new_setups := optimized_rule2_setups df_daily df_weekly false
            (some (last_analyzed_date + 1)) idBase
          if new_setups.isEmpty then (setups2, upd2) else (setups2 ++ new_setups, true)
        else (setups2, upd2)
      let st' : SymbolState :=
        { symbol := st.symbol
          last_updated := if upd3 then today else st.last_updated
          setups := setups3
          fvgs := fvgs2
          signals := signals2 }
      .ok (st', upd3, _create_summary_from_existing st')

/-! ## `HWBScanner._analyze_and_save_symbol` as a step on the persisted state -/

/-- `HWBScanner._analyze_and_save_symbol`, seen as its effect on the
persisted per-symbol document.  `df_daily` and `df_weekly` are the frames
after the method's own preprocessing (`to_datetime` of the index and
`~index.duplicated(keep='last')`), so they are date-deduplicated.  Empty
data or a failing current trend filter save nothing; a first encounter runs
the full scan and saves its result (if any); otherwise the differential run
saves only when something changed, and any exception it raises is caught at
the symbol boundary (`except` in `_analyze_and_save_symbol`), saving
nothing. -/
def analyzeStep (symbol : String) (df_daily : List DailyBar)
    (df_weekly : List WeeklyBar) (today idBase : ℕ)
    (persisted : Option SymbolState) : Option SymbolState :=
  if df_daily.isEmpty || df_weekly.isEmpty then persisted
  else
    if !optimized_rule1 df_weekly then persisted
    else
      match persisted with
      | none => _full_analysis symbol df_daily df_weekly today idBase
      | some st =>
        match _differential_analysis df_daily df_weekly st today idBase with
        | .error _ => some st
        | .ok (st', upd, _) => if upd then some st' else some st

/-- The setups of an optional persisted document. -/
def stateSetups : Option SymbolState → List Setup
  | none => []
  | some st => st.setups

/-- The persisted per-symbol documents reachable by any sequence of analysis
runs, starting from no document.  The freshness hypothesis on `idBase`
models the global uniqueness of `uuid4` ids. -/
inductive Reachable : Option SymbolState → Prop where
  | init : Reachable none
  | step (symbol : String) (df_daily : List DailyBar) (df_weekly : List WeeklyBar)
      (today idBase : ℕ) (st : Option SymbolState) :
      Reachable st → (∀ s ∈ stateSetups st, s.id < idBase) →
      Reachable (analyzeStep symbol df_daily df_weekly today idBase st)

/-! ## `HWBScanner._create_daily_summary` -/

/-- Same `(symbol, date)` dict key. -/
def sameKey (dateKey : SummaryRecord → Option ℕ) (r item : SummaryRecord) : Bool :=
  r.symbol == item.symbol && dateKey r == dateKey item

/-- One iteration of the dedup fold of `_merge_and_sort`: skip records
without the date key; first record of a key is kept in place, a later
record replaces it only with a strictly higher score. -/
def mergeStep (dateKey : SummaryRecord → Option ℕ) (acc : List SummaryRecord)
    (item : SummaryRecord) : List SummaryRecord :=
  match dateKey item with
  | none => acc
  | some _ =>
    match acc.find? (fun r => sameKey dateKey r item) with
    | none => acc ++ [item]
    | some r =>
      if r.score < item.score then
        acc.map (fun x => if sameKey dateKey x item then item else x)
      else acc

/-- `_merge_and_sort` of `_create_daily_summary`: dedup by (symbol, date)
keeping the higher score, then sort by score descending (Python's stable
sort; insertion sort is stable too). -/
def _merge_and_sort (items : List SummaryRecord)
    (dateKey : SummaryRecord → Option ℕ) : List SummaryRecord :=
  List.insertionSort (fun a b => b.score ≤ a.score) (items.foldl (mergeStep dateKey) [])

/-- The (symbol, date) dict-key test of the dedup in `_merge_and_sort`. -/
def keyIs (dateKey : SummaryRecord → Option ℕ) (sym : String) (d : ℕ)
    (r : SummaryRecord) : Bool :=
  r.symbol == sym && dateKey r == some d

instance : IsTotal SummaryRecord (fun a b => b.score ≤ a.score) :=
  ⟨fun a b => (le_total b.score a.score).elim Or.inl Or.inr⟩

instance : IsTrans SummaryRecord (fun a b => b.score ≤ a.score) :=
  ⟨fun _ _ _ hab hbc => le_trans hbc hab⟩

/-- The `summary` part of the daily summary document (`scan_date`,
`scan_time`, `scan_duration_seconds` and the wall-clock performance metric
are outside the embedding). -/
structure DailySummary where
  total_scanned : ℕ
  signals_count : ℕ
  candidates_count : ℕ
  signals : List SummaryRecord
  candidates : List SummaryRecord
  deriving DecidableEq, Repr

/-- `HWBScanner._create_daily_summary`. -/
def _create_daily_summary (results : List SummaryRecord) (total_scanned : ℕ) :
    DailySummary :=
  let all_signals := results.filter (fun r => r.signal_type == SignalType.signal)
  let all_candidates := results.filter (fun r => r.signal_type == SignalType.candidate)
  let unique_signals := _merge_and_sort all_signals (·.signal_date)
  let unique_candidates := _merge_and_sort all_candidates (·.fvg_date)
  { total_scanned := total_scanned
    signals_count := unique_signals.length
    candidates_count := unique_candidates.length
    signals := unique_signals
    candidates := unique_candidates }

/-! ## `HWBDataManager._save_to_db` — the intended-transactional replace -/

/-- A row of `daily_prices` / `weekly_prices` as handed to `to_sql`:
`none` models NaN (a NaN index entry or OHLC makes the row droppable;
a NULL average is storable). -/
structure DbRow where
  date : Option ℕ
  open_ : Option ℚ
  high : Option ℚ
  low : Option ℚ
  close : Option ℚ
  volume : ℚ
  sma200 : Option ℚ
  ema200 : Option ℚ
  deriving DecidableEq, Repr

/-- The two price tables, each a bag of (symbol, row) pairs. -/
structure PriceDB where
  daily : List (String × DbRow)
  weekly : List (String × DbRow)
  deriving DecidableEq, Repr

/-- `df.dropna(subset=['open','high','low','close'], how='any')` followed by
`df[df.index.notna()]`. -/
def dropnaOHLC (rows : List DbRow) : List DbRow :=
  (rows.filter (fun r =>
    r.open_.isSome && r.high.isSome && r.low.isSome && r.close.isSome)).filter
    (fun r => r.date.isSome)

/-- The rows inserted for a frame: nothing for a missing or empty frame, the
cleaned rows otherwise (an insert is issued only when they are non-empty,
which stores the same set of rows). -/
def rowsToInsert (df : Option (List DbRow)) : List DbRow :=
  match df with
  | none => []
  | some rows => if rows.isEmpty then [] else dropnaOHLC rows

/-- `HWBDataManager._save_to_db` over an abstract store in which each
operation may fail (`failAt = some k` fails the k-th operation: 0 `BEGIN`,
1/2 the two `DELETE`s, 3/4 the two `to_sql` inserts — numbered whether or
not they execute; a skipped insert cannot fail — 5 the final `COMMIT`).

The commit points follow pandas: `to_sql` on a raw sqlite3 connection runs
through `SQLiteDatabase.run_transaction`, which ends every successful call
with `con.commit()` and answers a failing one with `con.rollback()` before
re-raising.  So a non-empty daily insert makes the two `DELETE`s and the new
daily rows durable mid-"transaction"; a weekly-insert failure after it rolls
back only the weekly rows, and the outer `except` block's `conn.rollback()`
then finds nothing pending — the store is left with the symbol's daily
series replaced and its weekly rows deleted.  Failures at `BEGIN`, either
`DELETE`, or inside the daily insert happen before any commit, so there the
rollback does restore the old store.  The pair returned is (outcome, the
store as observable afterwards). -/
def _save_to_db (failAt : Option ℕ) (db : PriceDB) (symbol : String)
    (df_daily : Option (List DbRow)) (df_weekly : Option (List DbRow)) :
    Except Unit PriceDB × PriceDB :=
  let dailyRows := rowsToInsert df_daily
  let weeklyRows := rowsToInsert df_weekly
  -- what pandas' commit at the end of a non-empty daily insert makes durable:
  -- both DELETEs and the new daily rows
  let committedAfterDaily : PriceDB :=
    if dailyRows.isEmpty then db
    else
      { daily := db.daily.filter (fun p => !(p.1 == symbol)) ++
          dailyRows.map (fun r => (symbol, r))
        weekly := db.weekly.filter (fun p => !(p.1 == symbol)) }
  -- the fully replaced store
  let replaced : PriceDB :=
    { daily := db.daily.filter (fun p => !(p.1 == symbol)) ++
        dailyRows.map (fun r => (symbol, r))
      weekly := db.weekly.filter (fun p => !(p.1 == symbol)) ++
        weeklyRows.map (fun r => (symbol, r)) }
  if failAt = some 0 then (.error (), db)  -- BEGIN
  else if failAt = some 1 then (.error (), db)  -- DELETE daily (uncommitted)
  else if failAt = some 2 then (.error (), db)  -- DELETE weekly (uncommitted)
  -- daily to_sql fails: pandas rolls the whole pending transaction back
  else if !dailyRows.isEmpty && failAt = some 3 then (.error (), db)
  -- weekly to_sql fails: pandas rolls back to the last commit point, which is
  -- the mixed store when the daily insert ran, the old store when it did not
  else if !weeklyRows.isEmpty && failAt = some 4 then (.error (), committedAfterDaily)
  -- the final COMMIT publishes whatever is still pending; when the weekly
  -- insert ran, its own commit already published everything
  else if failAt = some 5 then
    (.error (), if weeklyRows.isEmpty then committedAfterDaily else replaced)
  else (.ok replaced, replaced)

/-! ## Invariant of the persisted state (for the reachability analysis) -/

/-- The signal-vs-setup discipline of a persisted document: setup ids are
unique, no two signals share a `setup_id`, a signaled setup is `consumed`,
and every signal's `setup_id` belongs to a recorded setup. -/
def SigInv (st : SymbolState) : Prop :=
  (st.setups.map (·.id)).Nodup ∧
  (st.signals.map (·.setup_id)).Nodup ∧
  (∀ sig ∈ st.signals, ∀ s ∈ st.setups, s.id = sig.setup_id → s.status = EntStatus.consumed) ∧
  (∀ sig ∈ st.signals, ∃ s ∈ st.setups, s.id = sig.setup_id)

/-- `SigInv` lifted to the optional persisted document. -/
def OptSigInv : Option SymbolState → Prop
  | none => True
  | some st => SigInv st

/-! ## Concrete series and states used as test inputs -/

/-- C1 input: six bars.  Bar 3 breaches the gap's lower bound
(`80 < 95 * 0.98`), bar 4 closes above the range-checker's resistance
(`101 > 100 * 1.003`). -/
def exDf1 : List DailyBar :=
  [⟨0, 94, 95, 93, 94, 100, none, none⟩,
   ⟨1, 99, 100, 95, 99, 100, none, none⟩,
   ⟨2, 97, 98, 96, 97, 100, none, none⟩,
   ⟨3, 85, 90, 80, 80, 100, none, none⟩,
   ⟨4, 100, 102, 99, 101, 100, none, none⟩,
   ⟨5, 99, 100, 98, 99, 100, none, none⟩]

def exSetup1 : Setup := ⟨7, 0, SetupType.PRIMARY, 0.85, EntStatus.active, none⟩

def exFvg1 : Fvg :=
  ⟨(7, 2), 7, 2, 1/95, 3, none, none, Quality.MEDIUM, 95, 96, EntStatus.active, none⟩

def exW1 : List WeeklyBar := [⟨0, 100, some 50⟩]

def exSt1 : SymbolState := ⟨"C1", 2, [exSetup1], [exFvg1], []⟩

/-- C2 input: 1020 daily bars (the full scan starts at index
`INITIAL_SCAN_MIN_HISTORY_DAYS = 1000`).  Index 1000 is a PRIMARY setup;
gap A forms at 1002 and is breached at 1005; gap B forms at 1017 and breaks
out at 1019. -/
def exRow2 (i : ℕ) : DailyBar :=
  if i < 1000 then ⟨i, 100, 100, 100, 100, 100, none, none⟩
  else if i = 1000 then ⟨i, 100, 101, 99, 100, 100, some 100, some 100⟩
  else if i = 1001 then ⟨i, 100, 101, 99, 100, 100, none, none⟩
  else if i = 1002 then ⟨i, 104, 106, 102, 105, 100, none, none⟩
  else if i = 1003 then ⟨i, 104, 105, 100, 104, 100, none, none⟩
  else if i = 1004 then ⟨i, 103, 104, 99, 103, 100, none, none⟩
  else if i = 1005 then ⟨i, 95, 100, 90, 96, 100, none, none⟩
  else if i = 1015 then ⟨i, 94, 95, 94, 94, 100, none, none⟩
  else if i = 1016 then ⟨i, 94, 95, 94, 95, 100, none, none⟩
  else if i = 1017 then ⟨i, 97, 99, 96, 97, 100, none, none⟩
  else if i = 1019 then ⟨i, 110, 112, 107, 110, 1000, none, none⟩
  else ⟨i, 97, 98, 94, 97, 100, none, none⟩

def exDf2 : List DailyBar := (List.range' 0 1020).map exRow2

def exW2 : List WeeklyBar := [⟨0, 100, some 50⟩]

/-- The state the full-history scan saves on `exDf2`: the setup is consumed
and one signal (from gap B) is recorded, while gap A — same `setup_id` —
stays `violated` in the stored gap list. -/
def stEx2 : SymbolState :=
  { symbol := "EX", last_updated := 1100,
    setups := [⟨1000, 1000, SetupType.PRIMARY, 0.85, EntStatus.consumed, some 1⟩],
    fvgs := [⟨(1000, 1002), 1000, 1002, 1/101, 3, some 1, none, Quality.LOW, 101, 102,
              EntStatus.violated, some 1005⟩],
    signals := [⟨(1000, 1017), 1000, 1017, 1/95, 3, Quality.LOW, 95, 96, 1019, 110,
                 3455/34, 6, BreakoutConfidence.MEDIUM, 52⟩] }

/-- C9 input: the first recorded setup is dated 55, which the refreshed
series no longer contains; the second (dated 1) is still resolvable. -/
def exDf9 : List DailyBar :=
  [⟨1, 100, 101, 99, 100, 100, none, none⟩,
   ⟨2, 100, 101, 99, 100, 100, none, none⟩,
   ⟨3, 100, 101, 99, 100, 100, none, none⟩]

def exW9 : List WeeklyBar := [⟨0, 100, some 50⟩]

def exSt9 : SymbolState :=
  ⟨"C9", 0,
   [⟨1, 55, SetupType.PRIMARY, 0.85, EntStatus.active, none⟩,
    ⟨2, 1, SetupType.SECONDARY, 0.65, EntStatus.active, none⟩],
   [], []⟩

/-- C3 input: a state last updated at date 10 and a series whose only bar
is dated 5. -/
def exSt3 : SymbolState := ⟨"C3", 10, [], [], []⟩

def exDf3 : List DailyBar := [⟨5, 100, 101, 99, 100, 100, none, none⟩]

/-- C5 inputs: two weekly series that agree on every bar dated ≤ 5 and
differ afterwards; a third whose bars at or before 5 have no SMA200. -/
def exW5a : List WeeklyBar := [⟨0, 100, some 50⟩, ⟨10, 200, some 80⟩]

def exW5b : List WeeklyBar := [⟨0, 100, some 50⟩, ⟨10, 77, none⟩, ⟨12, 1, some 1⟩]

/-- C7 input: a five-bar series with one gap at index 2 under a setup
dated 0. -/
def exDf7 : List DailyBar :=
  [⟨0, 99, 100, 98, 99, 100, none, none⟩,
   ⟨1, 100, 101, 99, 100, 100, none, none⟩,
   ⟨2, 102, 103, 101, 102, 100, none, none⟩,
   ⟨3, 102, 103, 101, 102, 100, none, none⟩,
   ⟨4, 102, 103, 101, 102, 100, none, none⟩]

def exSetup7 : Setup := ⟨3, 0, SetupType.PRIMARY, 0.85, EntStatus.active, none⟩

def exFvg7 : Fvg :=
  ⟨(3, 2), 3, 2, 1/100, 3, some 1, none, Quality.LOW, 100, 101, EntStatus.active, none⟩

/-- C8 input: fourteen bars; index 13 carries both averages. -/
def exDf8 : List DailyBar :=
  (List.range' 0 13).map (fun i => ⟨i, 100, 101, 99, 100, 100, none, none⟩) ++
    [⟨13, 100, 101, 99, 100, 100, some 100, some 100⟩]

def exW8 : List WeeklyBar := [⟨0, 100, some 50⟩]

/-- C10 input: two signal records sharing key ("A", 1) with scores 10 and
20, plus records under other keys and types. -/
def exRecs10 : List SummaryRecord :=
  [⟨"A", SignalType.signal, 10, some 1, none⟩,
   ⟨"A", SignalType.signal, 20, some 1, none⟩,
   ⟨"B", SignalType.signal, 5, some 2, none⟩,
   ⟨"A", SignalType.candidate, 7, none, some 1⟩,
   ⟨"A", SignalType.candidate, 3, none, some 1⟩]

/-- C6 inputs: a store holding daily and weekly rows of symbols "A" and "B";
the refreshed daily frame for "B" has one clean row and one row with a NaN
`open`, the refreshed weekly frame one clean row. -/
def exRow6a : DbRow := ⟨some 1, some 1, some 2, some 1, some 2, 10, none, none⟩

def exRow6b : DbRow := ⟨some 3, some 5, some 6, some 4, some 5, 20, some 5, some 5⟩

def exRow6bad : DbRow := ⟨some 4, none, some 6, some 4, some 5, 20, none, none⟩

def exDb6 : PriceDB :=
  ⟨[("A", exRow6a), ("B", exRow6a)], [("A", exRow6a), ("B", exRow6a)]⟩

/-! # Theorems -/

/-! ## Justification of the square-root comparison encoding -/

theorem sqrtLE_eq_true_iff (v r : ℚ) (hv : (0 : ℚ) ≤ v) :
    sqrtLE v r = true ↔ Real.sqrt (v : ℝ) ≤ (r : ℝ) := by
  unfold sqrtLE
  rw [Bool.and_eq_true, decide_eq_true_iff, decide_eq_true_iff]
  constructor
  · rintro ⟨hr, hvr⟩
    calc Real.sqrt (v : ℝ) ≤ Real.sqrt ((r : ℝ) ^ 2) := by
          apply Real.sqrt_le_sqrt
          exact_mod_cast hvr
      _ = (r : ℝ) := by
          rw [Real.sqrt_sq (by exact_mod_cast hr)]
  · intro h
    have hr : (0 : ℚ) ≤ r := by
      have := (Real.sqrt_nonneg (v : ℝ)).trans h
      exact_mod_cast this
    refine ⟨hr, ?_⟩
    have : (v : ℝ) ≤ (r : ℝ) ^ 2 := by
      calc (v : ℝ) = Real.sqrt (v : ℝ) ^ 2 := by
            rw [Real.sq_sqrt (by exact_mod_cast hv)]
        _ ≤ (r : ℝ) ^ 2 := by
            apply pow_le_pow_left₀ (Real.sqrt_nonneg _) h _
    exact_mod_cast this

theorem sqrtGE_eq_true_iff (v r : ℚ) (hv : (0 : ℚ) ≤ v) :
    sqrtGE v r = true ↔ (r : ℝ) ≤ Real.sqrt (v : ℝ) := by
  unfold sqrtGE
  rw [Bool.or_eq_true, decide_eq_true_iff, decide_eq_true_iff]
  constructor
  · rintro (hr | hvr)
    · exact (by exact_mod_cast hr : (r : ℝ) ≤ 0).trans (Real.sqrt_nonneg _)
    · calc (r : ℝ) ≤ |(r : ℝ)| := le_abs_self _
        _ = Real.sqrt ((r : ℝ) ^ 2) := (Real.sqrt_sq_eq_abs _).symm
        _ ≤ Real.sqrt (v : ℝ) := Real.sqrt_le_sqrt (by exact_mod_cast hvr)
  · intro h
    rcases le_or_lt r 0 with hr | hr
    · exact Or.inl hr
    · refine Or.inr ?_
      have : (r : ℝ) ^ 2 ≤ (v : ℝ) := by
        calc (r : ℝ) ^ 2 ≤ Real.sqrt (v : ℝ) ^ 2 :=
              pow_le_pow_left₀ (by exact_mod_cast hr.le) h 2
          _ = (v : ℝ) := Real.sq_sqrt (by exact_mod_cast hv)
      exact_mod_cast this

theorem sqrtLT_eq_true_iff (v r : ℚ) (hv : (0 : ℚ) ≤ v) :
    sqrtLT v r = true ↔ Real.sqrt (v : ℝ) < (r : ℝ) := by
  rw [← not_le, ← sqrtGE_eq_true_iff v r hv]
  unfold sqrtLT sqrtGE
  simp only [Bool.and_eq_true, Bool.or_eq_true, decide_eq_true_iff]
  constructor
  · rintro ⟨h0, h2⟩ (h3 | h4)
    · linarith
    · linarith
  · intro h
    push_neg at h
    exact h

theorem sqrtGT_eq_true_iff (v r : ℚ) (hv : (0 : ℚ) ≤ v) :
    sqrtGT v r = true ↔ (r : ℝ) < Real.sqrt (v : ℝ) := by
  rw [← not_le, ← sqrtLE_eq_true_iff v r hv]
  unfold sqrtGT sqrtLE
  simp only [Bool.and_eq_true, Bool.or_eq_true, decide_eq_true_iff]
  constructor
  · rintro (h0 | h2) ⟨h1, h3⟩
    · linarith
    · linarith
  · intro h
    push_neg at h
    rcases lt_or_le r 0 with h0 | h0
    · exact Or.inl h0
    · exact Or.inr (h h0)

/-! ## Claim C4 -/

/-- The incremental gap detector finds nothing: its score caps at 1 while
`MIN_FVG_SCORE` is 3. -/
theorem detect_fvg_in_range_eq_nil (df_daily : List DailyBar) (setup : Setup)
    (start_idx end_idx : ℕ) :
    _detect_fvg_in_range df_daily setup start_idx end_idx = [] := by
  unfold _detect_fvg_in_range
  rw [List.filterMap_eq_nil_iff]
  intro i _
  by_cases h2 : i < 2
  · simp [h2]
  · rw [if_neg h2]
    cases hc1 : df_daily.get? (i - 2) with
    | none => rfl
    | some c1 =>
      cases hc3 : df_daily.get? i with
      | none => rfl
      | some c3 =>
        by_cases hle : c3.low ≤ c1.high
        · simp [hle]
        · simp only [if_neg hle]
          by_cases hgap : (c3.low - c1.high) / c1.high < FVG_MIN_GAP_PERCENTAGE
          · simp [hgap]
          · simp only [if_neg hgap, MIN_FVG_SCORE]
            split <;> simp

/-- Claim C4: under the default configuration (`MIN_FVG_SCORE = 3`) the
incremental-mode gap detector `_detect_fvg_in_range` returns the empty list
for every daily series, setup and index range, because the score it assigns
any candidate is at most 1; hence differential analysis never adds a new
gap to an existing active setup. -/
theorem C4_detect_fvg_in_range_returns_nothing (df_daily : List DailyBar)
    (setup : Setup) (start_idx end_idx : ℕ) :
    _detect_fvg_in_range df_daily setup start_idx end_idx = [] :=
  detect_fvg_in_range_eq_nil df_daily setup start_idx end_idx

/-! ## Claim C5 -/

/-- `check_weekly_trend_at_date` factors through the bars dated at or
before the check date. -/
theorem check_weekly_eq_core (w : List WeeklyBar) (T : ℕ) :
    check_weekly_trend_at_date w T =
      weeklyTrendCore (w.filter (fun b => b.date ≤ T)) := by
  unfold check_weekly_trend_at_date
  split
  · rename_i h
    rw [List.isEmpty_iff] at h
    subst h
    rfl
  · rfl

/-- Claim C5: for any two weekly series that agree on every bar dated at or
before `T`, `check_weekly_trend_at_date` at `T` returns the same boolean on
both — the filter at `T` is unaffected by weekly bars dated after `T` — and
it returns `false` when no weekly SMA200 is yet defined at `T`. -/
theorem C5_trend_filter_point_in_time (w1 w2 : List WeeklyBar) (T : ℕ)
    (h : w1.filter (fun b => b.date ≤ T) = w2.filter (fun b => b.date ≤ T)) :
    check_weekly_trend_at_date w1 T = check_weekly_trend_at_date w2 T ∧
    ((w1.filter (fun b => b.date ≤ T)).all (fun b => b.sma200 = none) = true →
      check_weekly_trend_at_date w1 T = false) := by
  constructor
  · rw [check_weekly_eq_core, check_weekly_eq_core, h]
  · intro hall
    rw [check_weekly_eq_core]
    unfold weeklyTrendCore
    by_cases he : (w1.filter (fun b => b.date ≤ T)).isEmpty
    · simp [he]
    · simp [he, hall]

theorem C5_trend_filter_point_in_time_witness :
    check_weekly_trend_at_date exW5a 5 = check_weekly_trend_at_date exW5b 5 ∧
    ((exW5a.filter (fun b => b.date ≤ 5)).all (fun b => b.sma200 = none) = true →
      check_weekly_trend_at_date exW5a 5 = false) :=
  C5_trend_filter_point_in_time exW5a exW5b 5 (by decide)

/-! ## Claim C9 -/

/-- Claim C9 (amended): when a recorded date is no longer present in the
refreshed daily series, `_differential_analysis` raises (it does not skip
the entity), but the exception is contained at the symbol boundary:
`_analyze_and_save_symbol` catches it, the persisted state is unchanged and
the batch continues. -/
theorem C9_lookup_error_contained_at_symbol_boundary (symbol : String)
    (d : List DailyBar) (w : List WeeklyBar) (st : SymbolState)
    (today idBase : ℕ) (e : AnalysisError)
    (h : _differential_analysis d w st today idBase = .error e) :
    analyzeStep symbol d w today idBase (some st) = some st := by
  unfold analyzeStep
  split
  · rfl
  · split
    · rfl
    · simp only [h]

/-- Claim C9 (counterexample to the claim as stated): on a state whose
first recorded setup is dated 55 — absent from the refreshed series —
while its second setup (dated 1) is still resolvable, the differential
run aborts with a `KeyError` instead of skipping only the stale entity and
continuing with the rest. -/
theorem C9_counterexample :
    _differential_analysis exDf9 exW9 exSt9 9 10 = .error AnalysisError.lookupFailure ∧
    exSt9.setups.map (fun s => getLocD exDf9 s.date) = [none, some 0] := by decide!

theorem C9_lookup_error_contained_witness :
    analyzeStep "C9" exDf9 exW9 9 10 (some exSt9) = some exSt9 :=
  C9_lookup_error_contained_at_symbol_boundary "C9" exDf9 exW9 exSt9 9 10
    AnalysisError.lookupFailure (by decide!)

/-! ## Claim C3 -/

/-- Claim C3: if the daily series contains no bar strictly after the
state's last-analyzed date, `_differential_analysis` returns the state
untouched with `updated = false` (so nothing is persisted) and the summary
is the one derived from the unchanged state; re-running is idempotent. -/
theorem C3_differential_idempotent_no_new_bars (d : List DailyBar)
    (w : List WeeklyBar) (st : SymbolState) (today idBase : ℕ)
    (hne : d ≠ []) (hold : ∀ b ∈ d, b.date ≤ st.last_updated) :
    _differential_analysis d w st today idBase =
      .ok (st, false, _create_summary_from_existing st) := by
  have hsome : d.getLast?.isSome := by
    rw [List.getLast?_isSome]
    exact hne
  obtain ⟨lastBar, hlast⟩ := Option.isSome_iff_exists.mp hsome
  have hmem : lastBar ∈ d := List.mem_of_getLast?_eq_some hlast
  unfold _differential_analysis
  rw [hlast]
  simp only [if_pos (hold lastBar hmem)]

theorem C3_differential_idempotent_witness :
    _differential_analysis exDf3 [] exSt3 99 0 =
      .ok (exSt3, false, _create_summary_from_existing exSt3) :=
  C3_differential_idempotent_no_new_bars exDf3 [] exSt3 99 0 (by decide!) (by decide!)

/-! ## Claim C1 -/

/-- Claim C1 (code bug): on `exDf1`, bar 3's low 80 breaches the gap's
lower bound (`80 < 95 * 0.98`) before the first qualifying breakout bar
(bar 4), yet the incremental path `_check_breakout_in_range` — which has no
violation branch at all, though its caller handles a `violated` status —
returns `breakout`; the full-history path on the same data returns
`violated`.  Run through `_differential_analysis`, the breached gap
produces a signal and is cascade-marked `consumed`, never `violated`. -/
theorem C1_incremental_breakout_ignores_violation :
    exDf1.get? 3 = some ⟨3, 85, 90, 80, 80, 100, none, none⟩ ∧
    ((80 : ℚ) < exFvg1.lower_bound * 0.98) ∧
    _check_breakout_in_range exDf1 exSetup1 exFvg1 3 6 =
      some (BreakoutResult.breakout 4 101 100 6 BreakoutConfidence.MEDIUM) ∧
    optimized_breakout_detection_all_periods exDf1 exSetup1 exFvg1 =
      some (BreakoutResult.violated 3) ∧
    (_differential_analysis exDf1 exW1 exSt1 9 50).toOption.map
      (fun r => (r.1.signals.length, r.1.fvgs.map (·.status))) =
      some (1, [EntStatus.consumed]) := by decide!

/-! ## Claim C7 -/

/-- Claim C7: every gap emitted by either gap detector has
`lower_bound = candle1.high` and `upper_bound = candle3.low` for its
formation bar `i` (with `candle1` two bars earlier), strictly
`candle3.low > candle1.high` — hence `upper_bound > lower_bound` — and is
emitted only when the gap percentage reaches `FVG_MIN_GAP_PERCENTAGE`. -/
theorem C7_gap_geometry (df_daily : List DailyBar) (setup : Setup) (f : Fvg)
    (hf : f ∈ optimized_fvg_detection df_daily setup ∨
      ∃ a b, f ∈ _detect_fvg_in_range df_daily setup a b) :
    ∃ i c1 c3, df_daily.get? (i - 2) = some c1 ∧ df_daily.get? i = some c3 ∧
      f.lower_bound = c1.high ∧ f.upper_bound = c3.low ∧ c1.high < c3.low ∧
      FVG_MIN_GAP_PERCENTAGE ≤ (c3.low - c1.high) / c1.high ∧
      f.lower_bound < f.upper_bound := by
  rcases hf with hf | ⟨a, b, hf⟩
  · unfold optimized_fvg_detection at hf
    rcases hloc : getLocD df_daily setup.date with _ | setup_idx
    · rw [hloc] at hf
      simp at hf
    · rw [hloc] at hf
      have hf' := (List.perm_insertionSort _ _).mem_iff.mp hf
      rw [List.mem_filterMap] at hf'
      obtain ⟨i, _, hfi⟩ := hf'
      rcases h1 : df_daily.get? (i - 2) with _ | c1
      · rw [fvgAt, h1] at hfi
        exact absurd hfi (by simp)
      rcases h3 : df_daily.get? i with _ | c3
      · rw [fvgAt, h1, h3] at hfi
        exact absurd hfi (by simp)
      simp only [fvgAt, h1, h3] at hfi
      split at hfi
      · exact absurd hfi (by simp)
      · rename_i hle
        split at hfi
        · exact absurd hfi (by simp)
        · rename_i hgap
          repeat' split at hfi
          any_goals exact Option.noConfusion hfi
          all_goals
            injection hfi with hfi2
            subst hfi2
            exact ⟨i, c1, c3, h1, h3, rfl, rfl, not_le.mp hle,
              not_lt.mp hgap, not_le.mp hle⟩
  · rw [detect_fvg_in_range_eq_nil] at hf
    exact absurd hf (by simp)

theorem C7_gap_geometry_witness :
    ∃ i c1 c3, exDf7.get? (i - 2) = some c1 ∧ exDf7.get? i = some c3 ∧
      exFvg7.lower_bound = c1.high ∧ exFvg7.upper_bound = c3.low ∧
      c1.high < c3.low ∧
      FVG_MIN_GAP_PERCENTAGE ≤ (c3.low - c1.high) / c1.high ∧
      exFvg7.lower_bound < exFvg7.upper_bound :=
  C7_gap_geometry exDf7 exSetup7 exFvg7 (Or.inl (by decide!))

/-! ## Claim C8 -/

/-- Claim C8: for a day whose bar is in the series, where the weekly trend
filter passes at that day's date, both 200-period averages are defined, the
ATR14 value exists and the close is positive, the day's classification is:
PRIMARY with confidence 0.85 exactly when open and close both lie in the
zone `[min(sma,ema) − margin, max(sma,ema) + margin]` with
`margin = max (|sma − ema|) (0.5 * ATR14) * 0.2`; otherwise SECONDARY with
confidence 0.65 exactly when open or close lies in the zone and the body
midpoint does too; and no setup otherwise. -/
theorem C8_setup_zone_classification (df_daily : List DailyBar)
    (df_weekly : List WeeklyBar) (i : ℕ) (row : DailyBar) (s e a : ℚ)
    (hrow : df_daily.get? i = some row)
    (hw : check_weekly_trend_at_date df_weekly row.date = true)
    (hs : row.sma200 = some s) (he : row.ema200 = some e)
    (ha : atrAt df_daily i = some a) (hc : 0 < row.close) :
    (rule2ClassifyAt df_daily df_weekly i = some (SetupType.PRIMARY, 0.85) ↔
      (min s e - max |s - e| (0.5 * a) * 0.2 ≤ row.open_ ∧
        row.open_ ≤ max s e + max |s - e| (0.5 * a) * 0.2 ∧
        min s e - max |s - e| (0.5 * a) * 0.2 ≤ row.close ∧
        row.close ≤ max s e + max |s - e| (0.5 * a) * 0.2)) ∧
    (rule2ClassifyAt df_daily df_weekly i = some (SetupType.SECONDARY, 0.65) ↔
      (¬(min s e - max |s - e| (0.5 * a) * 0.2 ≤ row.open_ ∧
          row.open_ ≤ max s e + max |s - e| (0.5 * a) * 0.2 ∧
          min s e - max |s - e| (0.5 * a) * 0.2 ≤ row.close ∧
          row.close ≤ max s e + max |s - e| (0.5 * a) * 0.2) ∧
        ((min s e - max |s - e| (0.5 * a) * 0.2 ≤ row.open_ ∧
            row.open_ ≤ max s e + max |s - e| (0.5 * a) * 0.2) ∨
          (min s e - max |s - e| (0.5 * a) * 0.2 ≤ row.close ∧
            row.close ≤ max s e + max |s - e| (0.5 * a) * 0.2)) ∧
        (min s e - max |s - e| (0.5 * a) * 0.2 ≤ (row.open_ + row.close) / 2 ∧
          (row.open_ + row.close) / 2 ≤ max s e + max |s - e| (0.5 * a) * 0.2))) ∧
    (rule2ClassifyAt df_daily df_weekly i = none ↔
      (¬(min s e - max |s - e| (0.5 * a) * 0.2 ≤ row.open_ ∧
          row.open_ ≤ max s e + max |s - e| (0.5 * a) * 0.2 ∧
          min s e - max |s - e| (0.5 * a) * 0.2 ≤ row.close ∧
          row.close ≤ max s e + max |s - e| (0.5 * a) * 0.2) ∧
        ¬(((min s e - max |s - e| (0.5 * a) * 0.2 ≤ row.open_ ∧
            row.open_ ≤ max s e + max |s - e| (0.5 * a) * 0.2) ∨
          (min s e - max |s - e| (0.5 * a) * 0.2 ≤ row.close ∧
            row.close ≤ max s e + max |s - e| (0.5 * a) * 0.2)) ∧
          (min s e - max |s - e| (0.5 * a) * 0.2 ≤ (row.open_ + row.close) / 2 ∧
            (row.open_ + row.close) / 2 ≤ max s e + max |s - e| (0.5 * a) * 0.2)))) := by
  have hzw : (if 0 < a then max |s - e| (row.close * (a / row.close) * 0.5)
      else |s - e|) = max |s - e| (0.5 * a) := by
    split_ifs with h0
    · congr 1
      field_simp
      ring
    · rw [max_eq_left]
      calc (0.5 : ℚ) * a ≤ 0 := by nlinarith [not_lt.mp h0]
        _ ≤ |s - e| := abs_nonneg _
  simp only [rule2ClassifyAt, hrow, hw, hs, he, ha, hzw, if_true]
  split_ifs with h1 h2 h3
  · exact ⟨iff_of_true rfl h1,
      iff_of_false (by simp) (fun hcon => hcon.1 h1),
      iff_of_false (by simp) (fun hcon => hcon.1 h1)⟩
  · exact ⟨iff_of_false (by simp) h1,
      iff_of_true rfl ⟨h1, h2, h3⟩,
      iff_of_false (by simp) (fun hcon => hcon.2 ⟨h2, h3⟩)⟩
  · exact ⟨iff_of_false (by simp) h1,
      iff_of_false (by simp) (fun hcon => h3 hcon.2.2),
      iff_of_true rfl ⟨h1, fun hcon => h3 hcon.2⟩⟩
  · exact ⟨iff_of_false (by simp) h1,
      iff_of_false (by simp) (fun hcon => h2 hcon.2.1),
      iff_of_true rfl ⟨h1, fun hcon => h2 hcon.1⟩⟩

theorem C8_setup_zone_classification_witness :
    rule2ClassifyAt exDf8 exW8 13 = some (SetupType.PRIMARY, 0.85) :=
  (C8_setup_zone_classification exDf8 exW8 13
      ⟨13, 100, 101, 99, 100, 100, some 100, some 100⟩ 100 100 2
      (by decide!) (by decide!) (by decide!) (by decide!) (by decide!)
      (by decide!)).1.mpr (by decide!)

/-! ## Claim C6 -/

theorem filter_key_append_map (l : List (String × DbRow)) (symbol : String)
    (rows : List DbRow) :
    ((l.filter (fun p => !(p.1 == symbol))) ++ rows.map (fun r => (symbol, r))).filter
        (fun p => p.1 == symbol) = rows.map (fun r => (symbol, r)) := by
  rw [List.filter_append]
  have h1 : (l.filter (fun p => !(p.1 == symbol))).filter (fun p => p.1 == symbol) = [] := by
    induction l with
    | nil => rfl
    | cons x xs ih => by_cases h : x.1 == symbol <;> simp [List.filter_cons, h, ih]
  have h2 : (rows.map (fun r => (symbol, r))).filter (fun p => p.1 == symbol) =
      rows.map (fun r => (symbol, r)) := by
    induction rows with
    | nil => rfl
    | cons x xs ih => simp [List.filter_cons, ih]
  rw [h1, h2, List.nil_append]

theorem filter_notkey_append_map (l : List (String × DbRow)) (symbol : String)
    (rows : List DbRow) :
    ((l.filter (fun p => !(p.1 == symbol))) ++ rows.map (fun r => (symbol, r))).filter
        (fun p => !(p.1 == symbol)) = l.filter (fun p => !(p.1 == symbol)) := by
  rw [List.filter_append]
  have h1 : (l.filter (fun p => !(p.1 == symbol))).filter (fun p => !(p.1 == symbol)) =
      l.filter (fun p => !(p.1 == symbol)) := by
    induction l with
    | nil => rfl
    | cons x xs ih => by_cases h : x.1 == symbol <;> simp [List.filter_cons, h, ih]
  have h2 : (rows.map (fun r => (symbol, r))).filter (fun p => !(p.1 == symbol)) = [] := by
    induction rows with
    | nil => rfl
    | cons x xs ih => simp [List.filter_cons, ih]
  rw [h1, h2, List.append_nil]

/-- Claim C6 (code bug): the replace in `_save_to_db` is not atomic.
Failures at `BEGIN`, either `DELETE`, or inside the daily insert happen
before any commit, so there the exception is re-raised and the old store
stays; and a full success stores exactly the cleaned new rows for the
symbol, leaving every other symbol's rows unchanged.  But pandas' `to_sql`
on the raw sqlite3 connection commits the open transaction at the end of
each call, so once a non-empty daily insert has run, the two `DELETE`s and
the new daily rows are durable: a failure of the weekly insert then leaves
the symbol's daily series replaced and its weekly rows deleted — the mix of
old and new the claim declares unobservable. -/
theorem C6_save_to_db_partial_commit (failAt : Option ℕ) (db : PriceDB)
    (symbol : String) (df_daily df_weekly : Option (List DbRow)) :
    ((failAt = some 0 ∨ failAt = some 1 ∨ failAt = some 2 ∨
        ((rowsToInsert df_daily).isEmpty = false ∧ failAt = some 3)) →
      _save_to_db failAt db symbol df_daily df_weekly = (.error (), db)) ∧
    ((rowsToInsert df_daily).isEmpty = false →
      (rowsToInsert df_weekly).isEmpty = false →
      failAt = some 4 →
      _save_to_db failAt db symbol df_daily df_weekly =
        (.error (),
          { daily := db.daily.filter (fun p => !(p.1 == symbol)) ++
              (rowsToInsert df_daily).map (fun r => (symbol, r))
            weekly := db.weekly.filter (fun p => !(p.1 == symbol)) })) ∧
    (failAt = none →
      let db' : PriceDB :=
        { daily := db.daily.filter (fun p => !(p.1 == symbol)) ++
            (rowsToInsert df_daily).map (fun r => (symbol, r))
          weekly := db.weekly.filter (fun p => !(p.1 == symbol)) ++
            (rowsToInsert df_weekly).map (fun r => (symbol, r)) }
      _save_to_db failAt db symbol df_daily df_weekly = (.ok db', db') ∧
      db'.daily.filter (fun p => p.1 == symbol) =
        (rowsToInsert df_daily).map (fun r => (symbol, r)) ∧
      db'.weekly.filter (fun p => p.1 == symbol) =
        (rowsToInsert df_weekly).map (fun r => (symbol, r)) ∧
      db'.daily.filter (fun p => !(p.1 == symbol)) =
        db.daily.filter (fun p => !(p.1 == symbol)) ∧
      db'.weekly.filter (fun p => !(p.1 == symbol)) =
        db.weekly.filter (fun p => !(p.1 == symbol))) := by
  refine ⟨?_, ?_, ?_⟩
  · intro h
    rcases h with h | h | h | ⟨hne, h⟩ <;> subst h
    · simp [_save_to_db]
    · simp [_save_to_db]
    · simp [_save_to_db]
    · simp [_save_to_db, hne]
  · intro hd hw h
    subst h
    simp [_save_to_db, hd, hw]
  · intro h
    subst h
    exact ⟨by simp [_save_to_db], filter_key_append_map _ _ _,
      filter_key_append_map _ _ _, filter_notkey_append_map _ _ _,
      filter_notkey_append_map _ _ _⟩

theorem C6_save_to_db_partial_commit_witness :
    _save_to_db (some 4) exDb6 "B" (some [exRow6b, exRow6bad]) (some [exRow6b]) =
      (.error (), ⟨[("A", exRow6a), ("B", exRow6b)], [("A", exRow6a)]⟩) ∧
    (_save_to_db (some 4) exDb6 "B" (some [exRow6b, exRow6bad])
      (some [exRow6b])).2 ≠ exDb6 ∧
    (_save_to_db (some 4) exDb6 "B" (some [exRow6b, exRow6bad])
        (some [exRow6b])).2 ≠
      (_save_to_db none exDb6 "B" (some [exRow6b, exRow6bad])
        (some [exRow6b])).2 ∧
    (_save_to_db (some 2) exDb6 "B" (some [exRow6b, exRow6bad])
      (some [exRow6b])).2 = exDb6 := by
  refine ⟨?_, by decide!, by decide!, ?_⟩
  · exact ((C6_save_to_db_partial_commit (some 4) exDb6 "B"
        (some [exRow6b, exRow6bad]) (some [exRow6b])).2.1
      (by decide!) (by decide!) rfl).trans (by decide!)
  · rw [(C6_save_to_db_partial_commit (some 2) exDb6 "B"
      (some [exRow6b, exRow6bad]) (some [exRow6b])).1
      (Or.inr (Or.inr (Or.inl rfl)))]

/-! ### C10: dedup and sort of the daily summary -/

theorem eq_of_length_le_one {α : Type} {l : List α} (h : l.length ≤ 1)
    {a b : α} (ha : a ∈ l) (hb : b ∈ l) : a = b := by
  match l with
  | [] => exact absurd ha (List.not_mem_nil a)
  | [x] => rw [List.mem_singleton] at ha hb; rw [ha, hb]
  | x :: y :: xs => simp only [List.length_cons] at h; omega

theorem find?_eq_head?_filter {α : Type} (p : α → Bool) :
    ∀ l : List α, l.find? p = (l.filter p).head? := by
  intro l
  induction l with
  | nil => rfl
  | cons x xs ih =>
    cases hx : p x with
    | true =>
      rw [List.find?_cons_of_pos _ hx, List.filter_cons_of_pos hx, List.head?_cons]
    | false =>
      rw [List.find?_cons_of_neg, List.filter_cons_of_neg, ih]
      · rw [hx]; exact Bool.false_ne_true
      · rw [hx]; exact Bool.false_ne_true

theorem sameKey_fun_eq (dateKey : SummaryRecord → Option ℕ) (sym : String) (d : ℕ)
    (item : SummaryRecord) (hit : keyIs dateKey sym d item = true) :
    (fun r => sameKey dateKey r item) = keyIs dateKey sym d := by
  funext r
  simp only [keyIs, Bool.and_eq_true, beq_iff_eq] at hit
  simp only [sameKey, keyIs, hit.1, hit.2]

theorem filter_map_replace_key (dateKey : SummaryRecord → Option ℕ) (sym : String)
    (d : ℕ) (item : SummaryRecord) (hit : keyIs dateKey sym d item = true) :
    ∀ acc : List SummaryRecord,
      (acc.map (fun x => if sameKey dateKey x item then item else x)).filter
          (keyIs dateKey sym d) =
        (acc.filter (keyIs dateKey sym d)).map (fun _ => item) := by
  intro acc
  induction acc with
  | nil => rfl
  | cons x xs ih =>
    have hsk : sameKey dateKey x item = keyIs dateKey sym d x :=
      congrFun (sameKey_fun_eq dateKey sym d item hit) x
    cases hx : keyIs dateKey sym d x with
    | false =>
      have hs : sameKey dateKey x item = false := by rw [hsk, hx]
      simp [List.map_cons, List.filter_cons, hs, hx, ih]
    | true =>
      have hs : sameKey dateKey x item = true := by rw [hsk, hx]
      simp [List.map_cons, List.filter_cons, hs, hx, hit, ih]

theorem filter_map_replace_not_key (dateKey : SummaryRecord → Option ℕ) (sym : String)
    (d : ℕ) (item : SummaryRecord) (hit : keyIs dateKey sym d item = false) :
    ∀ acc : List SummaryRecord,
      (acc.map (fun x => if sameKey dateKey x item then item else x)).filter
          (keyIs dateKey sym d) = acc.filter (keyIs dateKey sym d) := by
  intro acc
  induction acc with
  | nil => rfl
  | cons x xs ih =>
    cases hs : sameKey dateKey x item with
    | false => simp [List.map_cons, List.filter_cons, hs, ih]
    | true =>
      have hx : keyIs dateKey sym d x = false := by
        cases hxx : keyIs dateKey sym d x with
        | false => rfl
        | true =>
          exfalso
          simp only [sameKey, Bool.and_eq_true, beq_iff_eq] at hs
          simp only [keyIs, Bool.and_eq_true, beq_iff_eq] at hxx
          have hk : keyIs dateKey sym d item = true := by
            simp only [keyIs, Bool.and_eq_true, beq_iff_eq]
            exact ⟨hs.1 ▸ hxx.1, hs.2 ▸ hxx.2⟩
          rw [hk] at hit
          exact Bool.noConfusion hit
      simp [List.map_cons, List.filter_cons, hs, hx, hit, ih]

theorem mergeStep_filter_not_key (dateKey : SummaryRecord → Option ℕ) (sym : String)
    (d : ℕ) (acc : List SummaryRecord) (item : SummaryRecord)
    (hit : keyIs dateKey sym d item = false) :
    (mergeStep dateKey acc item).filter (keyIs dateKey sym d) =
      acc.filter (keyIs dateKey sym d) := by
  unfold mergeStep
  cases hdk : dateKey item with
  | none => rfl
  | some v =>
    cases hf : acc.find? (fun r => sameKey dateKey r item) with
    | none => simp [List.filter_append, List.filter_cons, hit]
    | some r =>
      by_cases hsc : r.score < item.score
      · simp only [if_pos hsc]
        exact filter_map_replace_not_key dateKey sym d item hit acc
      · simp only [if_neg hsc]

theorem mergeStep_filter_key_nil (dateKey : SummaryRecord → Option ℕ) (sym : String)
    (d : ℕ) (acc : List SummaryRecord) (item : SummaryRecord)
    (hit : keyIs dateKey sym d item = true)
    (hacc : acc.filter (keyIs dateKey sym d) = []) :
    (mergeStep dateKey acc item).filter (keyIs dateKey sym d) = [item] := by
  have hdk : dateKey item = some d := by
    simp only [keyIs, Bool.and_eq_true, beq_iff_eq] at hit
    exact hit.2
  have hfind : acc.find? (fun r => sameKey dateKey r item) = none := by
    rw [sameKey_fun_eq dateKey sym d item hit, find?_eq_head?_filter, hacc]
    rfl
  unfold mergeStep
  rw [hdk, hfind]
  simp [List.filter_append, List.filter_cons, hit, hacc]

theorem mergeStep_filter_key_one (dateKey : SummaryRecord → Option ℕ) (sym : String)
    (d : ℕ) (acc : List SummaryRecord) (item r0 : SummaryRecord)
    (hit : keyIs dateKey sym d item = true)
    (hacc : acc.filter (keyIs dateKey sym d) = [r0]) :
    (mergeStep dateKey acc item).filter (keyIs dateKey sym d) =
      if r0.score < item.score then [item] else [r0] := by
  have hdk : dateKey item = some d := by
    simp only [keyIs, Bool.and_eq_true, beq_iff_eq] at hit
    exact hit.2
  have hfind : acc.find? (fun r => sameKey dateKey r item) = some r0 := by
    rw [sameKey_fun_eq dateKey sym d item hit, find?_eq_head?_filter, hacc]
    rfl
  unfold mergeStep
  rw [hdk, hfind]
  by_cases hsc : r0.score < item.score
  · simp only [if_pos hsc]
    rw [filter_map_replace_key dateKey sym d item hit acc, hacc]
    rfl
  · simp only [if_neg hsc]
    exact hacc

theorem merge_fold_inv (dateKey : SummaryRecord → Option ℕ) (sym : String) (d : ℕ) :
    ∀ (items acc : List SummaryRecord),
      (acc.filter (keyIs dateKey sym d)).length ≤ 1 →
      ((List.foldl (mergeStep dateKey) acc items).filter (keyIs dateKey sym d)).length ≤ 1 ∧
      ((List.foldl (mergeStep dateKey) acc items).filter (keyIs dateKey sym d) = [] →
        acc.filter (keyIs dateKey sym d) = [] ∧
        items.filter (keyIs dateKey sym d) = []) ∧
      (∀ r ∈ (List.foldl (mergeStep dateKey) acc items).filter (keyIs dateKey sym d),
        (r ∈ acc.filter (keyIs dateKey sym d) ∨ r ∈ items.filter (keyIs dateKey sym d)) ∧
        (∀ s, s ∈ acc.filter (keyIs dateKey sym d) ∨ s ∈ items.filter (keyIs dateKey sym d) →
          s.score ≤ r.score)) := by
  intro items
  induction items with
  | nil =>
    intro acc h1
    simp only [List.foldl_nil, List.filter_nil]
    refine ⟨h1, fun h => ⟨h, trivial⟩, fun r hr => ⟨Or.inl hr, fun s hs => ?_⟩⟩
    rcases hs with hs | hs
    · rw [eq_of_length_le_one h1 hs hr]
    · exact absurd hs (List.not_mem_nil s)
  | cons item rest ih =>
    intro acc h1
    simp only [List.foldl_cons]
    cases hit : keyIs dateKey sym d item with
    | false =>
      have hacc' : (mergeStep dateKey acc item).filter (keyIs dateKey sym d) =
          acc.filter (keyIs dateKey sym d) :=
        mergeStep_filter_not_key dateKey sym d acc item hit
      have hfi : (item :: rest).filter (keyIs dateKey sym d) =
          rest.filter (keyIs dateKey sym d) := by
        simp [List.filter_cons, hit]
      obtain ⟨ihl, ihe, ihm⟩ := ih (mergeStep dateKey acc item) (by rw [hacc']; exact h1)
      refine ⟨ihl, ?_, ?_⟩
      · intro h
        obtain ⟨he1, he2⟩ := ihe h
        rw [hacc'] at he1
        exact ⟨he1, by rw [hfi]; exact he2⟩
      · intro r hr
        obtain ⟨hmem, hdom⟩ := ihm r hr
        rw [hacc'] at hmem
        refine ⟨by rw [hfi]; exact hmem, fun s hs => ?_⟩
        rw [hfi] at hs
        refine hdom s ?_
        rw [hacc']
        exact hs
    | true =>
      have hfi : (item :: rest).filter (keyIs dateKey sym d) =
          item :: rest.filter (keyIs dateKey sym d) := by
        simp [List.filter_cons, hit]
      cases hacc : acc.filter (keyIs dateKey sym d) with
      | nil =>
        have hacc' : (mergeStep dateKey acc item).filter (keyIs dateKey sym d) = [item] :=
          mergeStep_filter_key_nil dateKey sym d acc item hit hacc
        obtain ⟨ihl, ihe, ihm⟩ := ih (mergeStep dateKey acc item) (by rw [hacc']; simp)
        refine ⟨ihl, ?_, ?_⟩
        · intro h
          obtain ⟨he1, _⟩ := ihe h
          rw [hacc'] at he1
          exact absurd he1 (by simp)
        · intro r hr
          obtain ⟨hmem, hdom⟩ := ihm r hr
          rw [hacc'] at hmem
          constructor
          · rcases hmem with hm | hm
            · rw [List.mem_singleton] at hm
              right; rw [hfi, hm]; exact List.mem_cons_self _ _
            · right; rw [hfi]; exact List.mem_cons_of_mem _ hm
          · intro s hs
            rcases hs with hs | hs
            · exact absurd hs (List.not_mem_nil s)
            · rw [hfi] at hs
              rcases List.mem_cons.mp hs with hs1 | hs2
              · rw [hs1]
                exact hdom item (Or.inl (by rw [hacc']; exact List.mem_singleton_self _))
              · exact hdom s (Or.inr hs2)
      | cons r0 rr =>
        have hrr : rr = [] := by
          rw [hacc] at h1
          simp only [List.length_cons] at h1
          exact List.length_eq_zero.mp (by omega)
        subst hrr
        have hacc' : (mergeStep dateKey acc item).filter (keyIs dateKey sym d) =
            if r0.score < item.score then [item] else [r0] :=
          mergeStep_filter_key_one dateKey sym d acc item r0 hit hacc
        obtain ⟨ihl, ihe, ihm⟩ := ih (mergeStep dateKey acc item)
          (by rw [hacc']; split <;> simp)
        refine ⟨ihl, ?_, ?_⟩
        · intro h
          obtain ⟨he1, _⟩ := ihe h
          rw [hacc'] at he1
          exact absurd he1 (by split <;> simp)
        · intro r hr
          obtain ⟨hmem, hdom⟩ := ihm r hr
          rw [hacc'] at hmem
          constructor
          · rcases hmem with hm | hm
            · by_cases hsc : r0.score < item.score
              · rw [if_pos hsc, List.mem_singleton] at hm
                right; rw [hfi, hm]; exact List.mem_cons_self _ _
              · rw [if_neg hsc, List.mem_singleton] at hm
                left; rw [hm]; exact List.mem_singleton_self _
            · right; rw [hfi]; exact List.mem_cons_of_mem _ hm
          · intro s hs
            have hdom_item : r0.score < item.score → item.score ≤ r.score := by
              intro hsc
              refine hdom item (Or.inl ?_)
              rw [hacc', if_pos hsc]
              exact List.mem_singleton_self _
            have hdom_r0 : ¬ r0.score < item.score → r0.score ≤ r.score := by
              intro hsc
              refine hdom r0 (Or.inl ?_)
              rw [hacc', if_neg hsc]
              exact List.mem_singleton_self _
            rcases hs with hs | hs
            · rw [List.mem_singleton] at hs
              rw [hs]
              by_cases hsc : r0.score < item.score
              · exact le_trans (le_of_lt hsc) (hdom_item hsc)
              · exact hdom_r0 hsc
            · rw [hfi] at hs
              rcases List.mem_cons.mp hs with hs1 | hs2
              · rw [hs1]
                by_cases hsc : r0.score < item.score
                · exact hdom_item hsc
                · exact le_trans (not_lt.mp hsc) (hdom_r0 hsc)
              · exact hdom s (Or.inr hs2)

theorem merge_and_sort_spec (items : List SummaryRecord)
    (dateKey : SummaryRecord → Option ℕ) (sym : String) (d : ℕ) :
    List.Sorted (fun a b => b.score ≤ a.score) (_merge_and_sort items dateKey) ∧
    ((_merge_and_sort items dateKey).filter (keyIs dateKey sym d)).length ≤ 1 ∧
    (items.filter (keyIs dateKey sym d) ≠ [] →
      ((_merge_and_sort items dateKey).filter (keyIs dateKey sym d)).length = 1) ∧
    (∀ r ∈ (_merge_and_sort items dateKey).filter (keyIs dateKey sym d),
      r ∈ items.filter (keyIs dateKey sym d) ∧
      ∀ s ∈ items.filter (keyIs dateKey sym d), s.score ≤ r.score) := by
  have hperm : (_merge_and_sort items dateKey).Perm
      (items.foldl (mergeStep dateKey) []) := by
    unfold _merge_and_sort
    exact List.perm_insertionSort _ _
  obtain ⟨hl, he, hm⟩ := merge_fold_inv dateKey sym d items [] (by simp)
  have hpf : ((_merge_and_sort items dateKey).filter (keyIs dateKey sym d)).Perm
      ((items.foldl (mergeStep dateKey) []).filter (keyIs dateKey sym d)) :=
    hperm.filter _
  refine ⟨?_, ?_, ?_, ?_⟩
  · unfold _merge_and_sort
    exact List.sorted_insertionSort _ _
  · rw [hpf.length_eq]
    exact hl
  · intro hne
    have h0 : (items.foldl (mergeStep dateKey) []).filter (keyIs dateKey sym d) ≠ [] :=
      fun h => hne (he h).2
    rw [hpf.length_eq]
    have hpos := List.length_pos.mpr h0
    omega
  · intro r hr
    have hr' : r ∈ (items.foldl (mergeStep dateKey) []).filter (keyIs dateKey sym d) :=
      hpf.mem_iff.mp hr
    obtain ⟨hmem, hdom⟩ := hm r hr'
    refine ⟨?_, fun s hs => hdom s (Or.inr hs)⟩
    rcases hmem with h | h
    · simp at h
    · exact h

/-- Claim C10: for any collection of per-symbol result records and any
(symbol, date) key, the daily summary's signals and candidates lists are
sorted by score descending, each retains at most one record with that key —
exactly one as soon as some input signal (resp. candidate) record carries
the key — and a retained record with the key is one of the input records
with that key whose score is greatest among them (so with two records of
differing scores sharing the key, the higher-scoring one is retained). -/
theorem C10_summary_dedup_and_sort (results : List SummaryRecord) (total : ℕ)
    (sym : String) (d : ℕ) :
    let summary := _create_daily_summary results total
    let sigIn := (results.filter (fun r => r.signal_type == SignalType.signal)).filter
      (keyIs (fun r => r.signal_date) sym d)
    let candIn := (results.filter (fun r => r.signal_type == SignalType.candidate)).filter
      (keyIs (fun r => r.fvg_date) sym d)
    List.Sorted (fun a b => b.score ≤ a.score) summary.signals ∧
    List.Sorted (fun a b => b.score ≤ a.score) summary.candidates ∧
    (summary.signals.filter (keyIs (fun r => r.signal_date) sym d)).length ≤ 1 ∧
    (sigIn ≠ [] →
      (summary.signals.filter (keyIs (fun r => r.signal_date) sym d)).length = 1) ∧
    (∀ r ∈ summary.signals.filter (keyIs (fun r => r.signal_date) sym d),
      r ∈ sigIn ∧ ∀ s ∈ sigIn, s.score ≤ r.score) ∧
    (summary.candidates.filter (keyIs (fun r => r.fvg_date) sym d)).length ≤ 1 ∧
    (candIn ≠ [] →
      (summary.candidates.filter (keyIs (fun r => r.fvg_date) sym d)).length = 1) ∧
    (∀ r ∈ summary.candidates.filter (keyIs (fun r => r.fvg_date) sym d),
      r ∈ candIn ∧ ∀ s ∈ candIn, s.score ≤ r.score) := by
  intro summary sigIn candIn
  obtain ⟨s1, s2, s3, s4⟩ := merge_and_sort_spec
    (results.filter (fun r => r.signal_type == SignalType.signal))
    (fun r => r.signal_date) sym d
  obtain ⟨c1, c2, c3, c4⟩ := merge_and_sort_spec
    (results.filter (fun r => r.signal_type == SignalType.candidate))
    (fun r => r.fvg_date) sym d
  exact ⟨s1, c1, s2, s3, s4, c2, c3, c4⟩

/-! ### C2: signal/setup bookkeeping across analysis runs -/

theorem rule2SetupAt_fields (df_daily : List DailyBar) (df_weekly : List WeeklyBar)
    (idBase i : ℕ) (s : Setup) (h : rule2SetupAt df_daily df_weekly idBase i = some s) :
    s.id = idBase + i ∧ s.status = EntStatus.active := by
  cases hg : df_daily[i]? with
  | none => simp [rule2SetupAt, List.get?_eq_getElem?, hg] at h
  | some row =>
    cases hc : rule2ClassifyAt df_daily df_weekly i with
    | none => simp [rule2SetupAt, List.get?_eq_getElem?, hg, hc] at h
    | some tc =>
      simp only [rule2SetupAt, List.get?_eq_getElem?, hg, hc, Option.map_some',
        Option.some.injEq] at h
      rw [← h]
      exact ⟨rfl, rfl⟩

theorem optimized_rule2_setups_mem (df_daily : List DailyBar) (df_weekly : List WeeklyBar)
    (full_scan : Bool) (ssd : Option ℕ) (idBase : ℕ) :
    ∀ s ∈ optimized_rule2_setups df_daily df_weekly full_scan ssd idBase,
      idBase ≤ s.id ∧ s.status = EntStatus.active := by
  intro s hs
  simp only [optimized_rule2_setups] at hs
  repeat' split at hs
  all_goals first
    | exact absurd hs (List.not_mem_nil s)
    | (rw [List.mem_filterMap] at hs
       obtain ⟨i, _, hsome⟩ := hs
       obtain ⟨hid, hst⟩ := rule2SetupAt_fields _ _ _ _ _ hsome
       exact ⟨by omega, hst⟩)

theorem filterMap_rule2_id_nodup (df_daily : List DailyBar) (df_weekly : List WeeklyBar)
    (idBase : ℕ) :
    ∀ l : List ℕ, l.Nodup →
      ((l.filterMap (rule2SetupAt df_daily df_weekly idBase)).map (fun s => s.id)).Nodup := by
  intro l
  induction l with
  | nil => intro hnd; exact List.nodup_nil
  | cons i t ih =>
    intro hnd
    rw [List.nodup_cons] at hnd
    cases hg : rule2SetupAt df_daily df_weekly idBase i with
    | none =>
      rw [List.filterMap_cons_none hg]
      exact ih hnd.2
    | some s =>
      rw [List.filterMap_cons_some hg, List.map_cons, List.nodup_cons]
      refine ⟨fun hmem => ?_, ih hnd.2⟩
      rw [List.mem_map] at hmem
      obtain ⟨s', hs', hid⟩ := hmem
      rw [List.mem_filterMap] at hs'
      obtain ⟨j, hj, hsome⟩ := hs'
      have h1 := (rule2SetupAt_fields _ _ _ _ _ hg).1
      have h2 := (rule2SetupAt_fields _ _ _ _ _ hsome).1
      have hji : j = i := by omega
      exact hnd.1 (hji ▸ hj)

theorem optimized_rule2_setups_id_nodup (df_daily : List DailyBar)
    (df_weekly : List WeeklyBar) (full_scan : Bool) (ssd : Option ℕ) (idBase : ℕ) :
    ((optimized_rule2_setups df_daily df_weekly full_scan ssd idBase).map
      (fun s => s.id)).Nodup := by
  simp only [optimized_rule2_setups]
  repeat' split
  all_goals first
    | exact List.nodup_nil
    | exact filterMap_rule2_id_nodup df_daily df_weekly idBase _ (List.nodup_range' _ _)

theorem nodup_shift {α : Type} {l₁ : List α} {a : α} {l₂ : List α}
    (h : (l₁ ++ a :: l₂).Nodup) : ((l₁ ++ [a]) ++ l₂).Nodup := by
  rw [List.append_assoc, List.singleton_append]
  exact h

theorem option_ite_some {α : Type} {c : Prop} [Decidable c] {r f : α}
    (h : (if c then some r else none) = some f) : f = r := by
  split at h
  · injection h with h'
    rw [h']
  · exact Option.noConfusion h

theorem fvgAt_setup_id (df_daily : List DailyBar) (setup : Setup) (i : ℕ) (f : Fvg)
    (h : fvgAt df_daily setup i = some f) : f.setup_id = setup.id := by
  cases h1 : df_daily[i - 2]? with
  | none => simp [fvgAt, List.get?_eq_getElem?, h1] at h
  | some candle_1 =>
    cases h3 : df_daily[i]? with
    | none => simp [fvgAt, List.get?_eq_getElem?, h1, h3] at h
    | some candle_3 =>
      simp only [fvgAt, List.get?_eq_getElem?, h1, h3] at h
      split at h
      · exact Option.noConfusion h
      · split at h
        · exact Option.noConfusion h
        · rw [option_ite_some h]

theorem optimized_fvg_detection_setup_id (df_daily : List DailyBar) (setup : Setup) :
    ∀ f ∈ optimized_fvg_detection df_daily setup, f.setup_id = setup.id := by
  intro f hf
  cases hg : getLocD df_daily setup.date with
  | none => simp [optimized_fvg_detection, hg] at hf
  | some setup_idx =>
    simp only [optimized_fvg_detection, hg] at hf
    have hf' : f ∈ (List.range' (setup_idx + 2)
        (min (setup_idx + params_fvg_search_days) (df_daily.length - 1) -
          (setup_idx + 2))).filterMap (fvgAt df_daily setup) :=
      (List.perm_insertionSort _ _).mem_iff.mp hf
    rw [List.mem_filterMap] at hf'
    obtain ⟨i, _, hsome⟩ := hf'
    exact fvgAt_setup_id df_daily setup i f hsome

theorem processFvgsFull_signal_setup_id (df_daily : List DailyBar) (setup : Setup) :
    ∀ (fvgs : List Fvg) (consumedF : List FvgId),
      (∀ f ∈ fvgs, f.setup_id = setup.id) →
      ∀ sig, (processFvgsFull df_daily setup fvgs consumedF).2.1 = some sig →
        sig.setup_id = setup.id := by
  intro fvgs
  induction fvgs with
  | nil => intro cF _ sig h; simp [processFvgsFull] at h
  | cons fvg rest ih =>
    intro cF hall sig h
    by_cases hcid : fvg.id ∈ cF
    · simp only [processFvgsFull] at h
      rw [if_pos hcid] at h
      exact ih cF (fun f hf => hall f (List.mem_cons_of_mem _ hf)) sig h
    · cases hb : optimized_breakout_detection_all_periods df_daily setup fvg with
      | none =>
        simp only [processFvgsFull, hb] at h
        rw [if_neg hcid] at h
        exact ih cF (fun f hf => hall f (List.mem_cons_of_mem _ hf)) sig h
      | some br =>
        cases br with
        | violated vd =>
          simp only [processFvgsFull, hb] at h
          rw [if_neg hcid] at h
          exact ih cF (fun f hf => hall f (List.mem_cons_of_mem _ hf)) sig h
        | breakout bd bp rp bs conf =>
          simp only [processFvgsFull, hb] at h
          rw [if_neg hcid] at h
          simp only [Option.some.injEq] at h
          rw [← h]
          exact hall fvg (List.mem_cons_self _ _)

theorem processSetupsFull_setups_out_ids (df_daily : List DailyBar) :
    ∀ (setups : List Setup) (acc : FullAcc),
      (processSetupsFull df_daily setups acc).setups_out.map (fun s => s.id) =
        acc.setups_out.map (fun s => s.id) ++ setups.map (fun s => s.id) := by
  intro setups
  induction setups with
  | nil => intro acc; simp [processSetupsFull]
  | cons setup rest ih =>
    intro acc
    simp only [processSetupsFull]
    split
    · rw [ih]
      simp only [List.map_append, List.map_cons, List.map_nil, List.append_assoc,
        List.singleton_append]
    · split
      · rw [ih]
        simp only [List.map_append, List.map_cons, List.map_nil, List.append_assoc,
          List.singleton_append]
      · rw [ih]
        simp only [List.map_append, List.map_cons, List.map_nil, List.append_assoc,
          List.singleton_append]

theorem processSetupsFull_inv (df_daily : List DailyBar) :
    ∀ (setups : List Setup) (acc : FullAcc),
      (acc.setups_out.map (fun s => s.id) ++ setups.map (fun s => s.id)).Nodup →
      (acc.all_signals.map (fun sg => sg.setup_id)).Nodup →
      (∀ sig ∈ acc.all_signals, ∃ s ∈ acc.setups_out,
        s.id = sig.setup_id ∧ s.status = EntStatus.consumed) →
      ((processSetupsFull df_daily setups acc).all_signals.map
        (fun sg => sg.setup_id)).Nodup ∧
      (∀ sig ∈ (processSetupsFull df_daily setups acc).all_signals,
        ∃ s ∈ (processSetupsFull df_daily setups acc).setups_out,
          s.id = sig.setup_id ∧ s.status = EntStatus.consumed) := by
  intro setups
  induction setups with
  | nil =>
    intro acc h1 h2 h3
    exact ⟨h2, h3⟩
  | cons setup rest ih =>
    intro acc h1 h2 h3
    rw [List.map_cons] at h1
    have hno : setup.id ∉ acc.setups_out.map (fun s => s.id) :=
      fun hmem => (List.disjoint_of_nodup_append h1) hmem (List.mem_cons_self _ _)
    by_cases hcid : setup.id ∈ acc.consumed_setups
    · simp only [processSetupsFull]
      rw [if_pos hcid]
      refine ih _ ?_ h2 ?_
      · simp only [List.map_append, List.map_cons, List.map_nil, List.append_assoc,
          List.singleton_append]
        exact h1
      · intro sig hsig
        obtain ⟨s, hs, hp⟩ := h3 sig hsig
        exact ⟨s, List.mem_append_left _ hs, hp⟩
    · cases ho : (processFvgsFull df_daily setup (optimized_fvg_detection df_daily setup)
          acc.consumed_fvgs).2.1 with
      | none =>
        simp only [processSetupsFull, ho]
        rw [if_neg hcid]
        refine ih _ ?_ h2 ?_
        · simp only [List.map_append, List.map_cons, List.map_nil, List.append_assoc,
            List.singleton_append]
          exact h1
        · intro sig hsig
          obtain ⟨s, hs, hp⟩ := h3 sig hsig
          exact ⟨s, List.mem_append_left _ hs, hp⟩
      | some sig =>
        have hsid : sig.setup_id = setup.id :=
          processFvgsFull_signal_setup_id df_daily setup
            (optimized_fvg_detection df_daily setup) acc.consumed_fvgs
            (optimized_fvg_detection_setup_id df_daily setup) sig ho
        simp only [processSetupsFull, ho]
        rw [if_neg hcid]
        refine ih _ ?_ ?_ ?_
        · simp only [List.map_append, List.map_cons, List.map_nil, List.append_assoc,
            List.singleton_append]
          exact h1
        · simp only [List.map_append, List.map_cons, List.map_nil]
          rw [List.nodup_append]
          refine ⟨h2, List.nodup_singleton _, ?_⟩
          intro a ha hb
          rw [List.mem_singleton] at hb
          rw [List.mem_map] at ha
          obtain ⟨sg, hsg, hsgid⟩ := ha
          obtain ⟨s, hs, hsid', _⟩ := h3 sg hsg
          apply hno
          have hsa : s.id = setup.id := by rw [hsid', hsgid, hb, hsid]
          rw [← hsa]
          exact List.mem_map_of_mem _ hs
        · intro sg hsg
          rcases List.mem_append.mp hsg with hmem | hmem
          · obtain ⟨s, hs, hp⟩ := h3 sg hmem
            exact ⟨s, List.mem_append_left _ hs, hp⟩
          · rw [List.mem_singleton] at hmem
            refine ⟨{ setup with status := EntStatus.consumed },
              List.mem_append_right _ (List.mem_singleton_self _), ?_, rfl⟩
            rw [hmem]
            exact hsid.symm

theorem full_analysis_SigInv (symbol : String) (df_daily : List DailyBar)
    (df_weekly : List WeeklyBar) (today idBase : ℕ) (st : SymbolState)
    (h : _full_analysis symbol df_daily df_weekly today idBase = some st) :
    SigInv st := by
  simp only [_full_analysis] at h
  split at h
  · exact Option.noConfusion h
  · split at h
    · exact Option.noConfusion h
    · injection h with h'
      have hnodup0 : ((optimized_rule2_setups df_daily df_weekly true none idBase).map
          (fun s => s.id)).Nodup := optimized_rule2_setups_id_nodup _ _ _ _ _
      have hids := processSetupsFull_setups_out_ids df_daily
        (optimized_rule2_setups df_daily df_weekly true none idBase) ⟨[], [], [], [], []⟩
      have hmapnd : ((processSetupsFull df_daily
          (optimized_rule2_setups df_daily df_weekly true none idBase)
          ⟨[], [], [], [], []⟩).setups_out.map (fun s => s.id)).Nodup := by
        rw [hids]
        simpa using hnodup0
      have hinv := processSetupsFull_inv df_daily
        (optimized_rule2_setups df_daily df_weekly true none idBase) ⟨[], [], [], [], []⟩
        (by simpa using hnodup0) (by simp)
        (fun sig hsig => absurd hsig (List.not_mem_nil sig))
      rw [← h']
      refine ⟨hmapnd, hinv.1, ?_, ?_⟩
      · intro sig hsig s hs hid
        obtain ⟨s₀, hs₀, hid₀, hcons⟩ := hinv.2 sig hsig
        have heq : s = s₀ :=
          List.inj_on_of_nodup_map hmapnd hs hs₀ (by rw [hid, hid₀])
        rw [heq]
        exact hcons
      · intro sig hsig
        obtain ⟨s₀, hs₀, hid₀, _⟩ := hinv.2 sig hsig
        exact ⟨s₀, hs₀, hid₀⟩

theorem consumeFirstSetup_map_id : ∀ (l : List Setup) (sid : ℕ),
    (consumeFirstSetup l sid).map (fun s => s.id) = l.map (fun s => s.id) := by
  intro l sid
  induction l with
  | nil => rfl
  | cons s rest ih =>
    simp only [consumeFirstSetup]
    by_cases h : s.id = sid
    · rw [if_pos h]
      simp only [List.map_cons]
    · rw [if_neg h]
      simp only [List.map_cons, ih]

theorem consumeFirstSetup_mem : ∀ (l : List Setup) (sid : ℕ) (s' : Setup),
    s' ∈ consumeFirstSetup l sid →
    ∃ s ∈ l, s'.id = s.id ∧ (s'.status = s.status ∨ s'.status = EntStatus.consumed) := by
  intro l sid
  induction l with
  | nil => intro s' hs'; exact absurd hs' (List.not_mem_nil s')
  | cons s rest ih =>
    intro s' hs'
    simp only [consumeFirstSetup] at hs'
    by_cases h : s.id = sid
    · rw [if_pos h] at hs'
      rcases List.mem_cons.mp hs' with h1 | h1
      · exact ⟨s, List.mem_cons_self _ _, by rw [h1], Or.inr (by rw [h1])⟩
      · exact ⟨s', List.mem_cons_of_mem _ h1, rfl, Or.inl rfl⟩
    · rw [if_neg h] at hs'
      rcases List.mem_cons.mp hs' with h1 | h1
      · exact ⟨s, List.mem_cons_self _ _, by rw [h1], Or.inl (by rw [h1])⟩
      · obtain ⟨s₀, hs₀, hid, hst⟩ := ih s' h1
        exact ⟨s₀, List.mem_cons_of_mem _ hs₀, hid, hst⟩

theorem consumeFirstSetup_consumed : ∀ (l : List Setup) (sid : ℕ),
    (l.map (fun s => s.id)).Nodup →
    ∀ s' ∈ consumeFirstSetup l sid, s'.id = sid → s'.status = EntStatus.consumed := by
  intro l sid
  induction l with
  | nil => intro _ s' hs' _; exact absurd hs' (List.not_mem_nil s')
  | cons s rest ih =>
    intro hnd s' hs' hid
    rw [List.map_cons, List.nodup_cons] at hnd
    simp only [consumeFirstSetup] at hs'
    by_cases h : s.id = sid
    · rw [if_pos h] at hs'
      rcases List.mem_cons.mp hs' with h1 | h1
      · rw [h1]
      · exfalso
        apply hnd.1
        rw [h, ← hid]
        exact List.mem_map_of_mem _ h1
    · rw [if_neg h] at hs'
      rcases List.mem_cons.mp hs' with h1 | h1
      · exfalso
        rw [h1] at hid
        exact h hid
      · exact ih hnd.2 s' h1 hid

theorem diffBreakoutLoop_inv (df_daily : List DailyBar) (la : ℕ) :
    ∀ (gaps : List Fvg) (setups : List Setup) (fvgs : List Fvg)
      (signals : List Signal) (upd : Bool)
      (res : List Setup × List Fvg × List Signal × Bool),
      diffBreakoutLoop df_daily la gaps setups fvgs signals upd = .ok res →
      (res.1 = setups ∧ res.2.2.1 = signals) ∨
      (∃ sid : ℕ,
        res.1 = consumeFirstSetup setups sid ∧
        (∃ sig, res.2.2.1 = signals ++ [sig] ∧ sig.setup_id = sid) ∧
        (∃ s ∈ setups, s.id = sid ∧ s.status ≠ EntStatus.consumed)) := by
  intro gaps
  induction gaps with
  | nil =>
    intro setups fvgs signals upd res h
    simp only [diffBreakoutLoop] at h
    injection h with h'
    rw [← h']
    exact Or.inl ⟨rfl, rfl⟩
  | cons fvg rest ih =>
    intro setups fvgs signals upd res h
    cases hfind : setups.find? (fun s => s.id == fvg.setup_id) with
    | none =>
      simp only [diffBreakoutLoop, hfind] at h
      exact ih setups fvgs signals upd res h
    | some setup =>
      by_cases hcons : setup.status = EntStatus.consumed
      · simp only [diffBreakoutLoop, hfind] at h
        rw [if_pos hcons] at h
        exact ih setups fvgs signals upd res h
      · cases hloc : getLocD df_daily fvg.formation_date with
        | none =>
          simp only [diffBreakoutLoop, hfind, hloc] at h
          rw [if_neg hcons] at h
          exact Except.noConfusion h
        | some fvg_idx =>
          simp only [diffBreakoutLoop, hfind, hloc] at h
          rw [if_neg hcons] at h
          by_cases hrange :
            df_daily.length ≤ max (fvg_idx + 1) (searchsortedD df_daily (la + 1))
          · rw [if_pos hrange] at h
            exact ih setups fvgs signals upd res h
          · rw [if_neg hrange] at h
            cases hbr : _check_breakout_in_range df_daily setup fvg
                (max (fvg_idx + 1) (searchsortedD df_daily (la + 1)))
                df_daily.length with
            | none =>
              rw [hbr] at h
              exact ih setups fvgs signals upd res h
            | some br =>
              cases br with
              | violated vd =>
                rw [hbr] at h
                exact ih setups _ signals true res h
              | breakout bd bp rp bs conf =>
                rw [hbr] at h
                injection h with h'
                rw [← h']
                refine Or.inr ⟨fvg.setup_id, rfl,
                  ⟨mkSignal fvg bd bp rp bs conf, rfl, rfl⟩,
                  ⟨setup, List.mem_of_find?_eq_some hfind, ?_, hcons⟩⟩
                have hbeq := List.find?_some hfind
                exact beq_iff_eq.mp hbeq

theorem differential_core_SigInv (st : SymbolState) (idBase : ℕ)
    (hinv : SigInv st) (hfresh : ∀ s ∈ st.setups, s.id < idBase)
    (setups2 : List Setup) (signals2 : List Signal)
    (hI : (setups2 = st.setups ∧ signals2 = st.signals) ∨
      (∃ sid : ℕ, setups2 = consumeFirstSetup st.setups sid ∧
        (∃ sig, signals2 = st.signals ++ [sig] ∧ sig.setup_id = sid) ∧
        (∃ s ∈ st.setups, s.id = sid ∧ s.status ≠ EntStatus.consumed)))
    (ns : List Setup)
    (hns_nd : (ns.map (fun s => s.id)).Nodup)
    (hns_mem : ∀ s ∈ ns, idBase ≤ s.id ∧ s.status = EntStatus.active)
    (setups3 : List Setup)
    (h3 : setups3 = setups2 ∨ setups3 = setups2 ++ ns)
    (fvgs2 : List Fvg) (lu : ℕ) :
    SigInv { symbol := st.symbol, last_updated := lu, setups := setups3,
             fvgs := fvgs2, signals := signals2 } := by
  obtain ⟨hnd_su, hnd_sg, hcons, hex⟩ := hinv
  have hs2ids : setups2.map (fun s => s.id) = st.setups.map (fun s => s.id) := by
    rcases hI with ⟨he, -⟩ | ⟨sid, he, -, -⟩
    · rw [he]
    · rw [he, consumeFirstSetup_map_id]
  have hsg_lt : ∀ sg ∈ signals2, sg.setup_id < idBase := by
    intro sg hsg
    rcases hI with ⟨-, he⟩ | ⟨sid, -, ⟨sig', hsge, hsid'⟩, ⟨s, hs, hsid, -⟩⟩
    · rw [he] at hsg
      obtain ⟨s, hs, hid⟩ := hex sg hsg
      rw [← hid]
      exact hfresh s hs
    · rw [hsge] at hsg
      rcases List.mem_append.mp hsg with hm | hm
      · obtain ⟨s₀, hs₀, hid⟩ := hex sg hm
        rw [← hid]
        exact hfresh s₀ hs₀
      · rw [List.mem_singleton] at hm
        rw [hm, hsid', ← hsid]
        exact hfresh s hs
  have hs2_nd : (setups2.map (fun s => s.id)).Nodup := by
    rw [hs2ids]
    exact hnd_su
  have h3_nd : (setups3.map (fun s => s.id)).Nodup := by
    rcases h3 with he | he
    · rw [he]
      exact hs2_nd
    · rw [he, List.map_append, List.nodup_append]
      refine ⟨hs2_nd, hns_nd, ?_⟩
      intro a ha hb
      rw [hs2ids, List.mem_map] at ha
      obtain ⟨s, hs, hid⟩ := ha
      rw [List.mem_map] at hb
      obtain ⟨s', hs', hid'⟩ := hb
      have h1 := hfresh s hs
      have h2 := (hns_mem s' hs').1
      omega
  have hfind2 : ∀ sid : ℕ, sid ∈ st.setups.map (fun s => s.id) →
      ∃ s' ∈ setups2, s'.id = sid := by
    intro sid hsid
    rw [← hs2ids, List.mem_map] at hsid
    obtain ⟨s', hs', hid⟩ := hsid
    exact ⟨s', hs', hid⟩
  refine ⟨h3_nd, ?_, ?_, ?_⟩
  · rcases hI with ⟨-, he⟩ | ⟨sid, -, ⟨sig', hsge, hsid'⟩, ⟨s, hs, hsid, hnc⟩⟩
    · rw [he]
      exact hnd_sg
    · rw [hsge, List.map_append, List.map_cons, List.map_nil, List.nodup_append]
      refine ⟨hnd_sg, List.nodup_singleton _, ?_⟩
      intro a ha hb
      rw [List.mem_singleton] at hb
      rw [List.mem_map] at ha
      obtain ⟨sg, hsg, hsgid⟩ := ha
      obtain ⟨s₀, hs₀, hid₀⟩ := hex sg hsg
      have : s₀.status = EntStatus.consumed := by
        apply hcons sg hsg s₀ hs₀
        exact hid₀
      apply hnc
      have hseq : s = s₀ :=
        List.inj_on_of_nodup_map hnd_su hs hs₀ (by rw [hid₀, hsgid, hb, hsid', hsid])
      rw [hseq]
      exact this
  · intro sg hsg s hs hid
    rcases h3 with he | he
    · rw [he] at hs
      rcases hI with ⟨hse, hge⟩ | ⟨sid, hse, ⟨sig', hsge, hsid'⟩, ⟨s₁, hs₁, hsid₁, hnc⟩⟩
      · rw [hse] at hs
        rw [hge] at hsg
        exact hcons sg hsg s hs hid
      · rw [hse] at hs
        rw [hsge] at hsg
        rcases List.mem_append.mp hsg with hm | hm
        · obtain ⟨s₀, hs₀, hid₀, hst⟩ := consumeFirstSetup_mem st.setups sid s hs
          have hc₀ : s₀.status = EntStatus.consumed := by
            apply hcons sg hm s₀ hs₀
            rw [← hid₀]
            exact hid
          rcases hst with h | h
          · rw [h, hc₀]
          · exact h
        · rw [List.mem_singleton] at hm
          refine consumeFirstSetup_consumed st.setups sid hnd_su s hs ?_
          rw [hid, hm, hsid']
    · rw [he] at hs
      rcases List.mem_append.mp hs with hm | hm
      · rcases hI with ⟨hse, hge⟩ | ⟨sid, hse, ⟨sig', hsge, hsid'⟩, ⟨s₁, hs₁, hsid₁, hnc⟩⟩
        · rw [hse] at hm
          rw [hge] at hsg
          exact hcons sg hsg s hm hid
        · rw [hse] at hm
          rw [hsge] at hsg
          rcases List.mem_append.mp hsg with hm' | hm'
          · obtain ⟨s₀, hs₀, hid₀, hst⟩ := consumeFirstSetup_mem st.setups sid s hm
            have hc₀ : s₀.status = EntStatus.consumed := by
              apply hcons sg hm' s₀ hs₀
              rw [← hid₀]
              exact hid
            rcases hst with h | h
            · rw [h, hc₀]
            · exact h
          · rw [List.mem_singleton] at hm'
            refine consumeFirstSetup_consumed st.setups sid hnd_su s hm ?_
            rw [hid, hm', hsid']
      · exfalso
        have h1 := (hns_mem s hm).1
        have h2 := hsg_lt sg hsg
        omega
  · intro sg hsg
    have hsub : ∃ s' ∈ setups2, s'.id = sg.setup_id := by
      rcases hI with ⟨-, hge⟩ | ⟨sid, -, ⟨sig', hsge, hsid'⟩, ⟨s₁, hs₁, hsid₁, -⟩⟩
      · rw [hge] at hsg
        obtain ⟨s₀, hs₀, hid₀⟩ := hex sg hsg
        refine hfind2 sg.setup_id ?_
        rw [← hid₀]
        exact List.mem_map_of_mem _ hs₀
      · rw [hsge] at hsg
        rcases List.mem_append.mp hsg with hm | hm
        · obtain ⟨s₀, hs₀, hid₀⟩ := hex sg hm
          refine hfind2 sg.setup_id ?_
          rw [← hid₀]
          exact List.mem_map_of_mem _ hs₀
        · rw [List.mem_singleton] at hm
          refine hfind2 sg.setup_id ?_
          rw [hm, hsid', ← hsid₁]
          exact List.mem_map_of_mem _ hs₁
    obtain ⟨s', hs', hid'⟩ := hsub
    rcases h3 with he | he
    · rw [he]
      exact ⟨s', hs', hid'⟩
    · rw [he]
      exact ⟨s', List.mem_append_left _ hs', hid'⟩

theorem except_bind_ok {ε α β : Type} (a : α) (f : α → Except ε β) :
    (Except.ok a >>= f) = f a := rfl

theorem except_bind_error {ε α β : Type} (e : ε) (f : α → Except ε β) :
    ((Except.error e : Except ε α) >>= f) = Except.error e := rfl

theorem differential_SigInv (df_daily : List DailyBar) (df_weekly : List WeeklyBar)
    (st : SymbolState) (today idBase : ℕ)
    (hinv : SigInv st) (hfresh : ∀ s ∈ st.setups, s.id < idBase)
    (st' : SymbolState) (upd : Bool) (recs : List SummaryRecord)
    (h : _differential_analysis df_daily df_weekly st today idBase =
      .ok (st', upd, recs)) :
    SigInv st' := by
  simp only [_differential_analysis] at h
  cases hlast : df_daily.getLast? with
  | none =>
    simp only [hlast] at h
    exact Except.noConfusion h
  | some lastBar =>
    simp only [hlast] at h
    by_cases hle : lastBar.date ≤ st.last_updated
    · rw [if_pos hle] at h
      injection h with h'
      injection h' with h1 h2
      rw [← h1]
      exact hinv
    · rw [if_neg hle] at h
      cases h1 : diffFvgSearch df_daily st.last_updated
          (st.setups.filter (fun s => s.status == EntStatus.active)) st.fvgs [] false with
      | error e =>
        simp only [h1, except_bind_error] at h
        exact Except.noConfusion h
      | ok t1 =>
        obtain ⟨fvgs1, new_fvgs, upd1⟩ := t1
        simp only [h1, except_bind_ok] at h
        cases h2 : diffBreakoutLoop df_daily st.last_updated
            (st.fvgs.filter (fun f => f.status == EntStatus.active) ++ new_fvgs)
            st.setups fvgs1 st.signals upd1 with
        | error e =>
          simp only [h2, except_bind_error] at h
          exact Except.noConfusion h
        | ok t2 =>
          obtain ⟨setups2, fvgs2, signals2, upd2⟩ := t2
          simp only [h2, except_bind_ok] at h
          have hI := diffBreakoutLoop_inv df_daily st.last_updated
            (st.fvgs.filter (fun f => f.status == EntStatus.active) ++ new_fvgs)
            st.setups fvgs1 st.signals upd1 (setups2, fvgs2, signals2, upd2) h2
          by_cases hc : ((st.setups.filter
                (fun s => s.status == EntStatus.active)).isEmpty ||
              setups2.all (fun s => s.status == EntStatus.consumed)) = true
          · rw [if_pos hc] at h
            by_cases hni : (optimized_rule2_setups df_daily df_weekly false
                (some (st.last_updated + 1)) idBase).isEmpty = true
            · rw [if_pos hni] at h
              injection h with h'
              injection h' with hA hB
              rw [← hA]
              exact differential_core_SigInv st idBase hinv hfresh setups2 signals2 hI
                (optimized_rule2_setups df_daily df_weekly false
                  (some (st.last_updated + 1)) idBase)
                (optimized_rule2_setups_id_nodup _ _ _ _ _)
                (optimized_rule2_setups_mem _ _ _ _ _)
                setups2 (Or.inl rfl) fvgs2 _
            · rw [if_neg hni] at h
              injection h with h'
              injection h' with hA hB
              rw [← hA]
              exact differential_core_SigInv st idBase hinv hfresh setups2 signals2 hI
                (optimized_rule2_setups df_daily df_weekly false
                  (some (st.last_updated + 1)) idBase)
                (optimized_rule2_setups_id_nodup _ _ _ _ _)
                (optimized_rule2_setups_mem _ _ _ _ _)
                _ (Or.inr rfl) fvgs2 _
          · rw [if_neg hc] at h
            injection h with h'
            injection h' with hA hB
            rw [← hA]
            exact differential_core_SigInv st idBase hinv hfresh setups2 signals2 hI
              (optimized_rule2_setups df_daily df_weekly false
                (some (st.last_updated + 1)) idBase)
              (optimized_rule2_setups_id_nodup _ _ _ _ _)
              (optimized_rule2_setups_mem _ _ _ _ _)
              setups2 (Or.inl rfl) fvgs2 _

theorem analyzeStep_OptSigInv (symbol : String) (df_daily : List DailyBar)
    (df_weekly : List WeeklyBar) (today idBase : ℕ) (stOpt : Option SymbolState)
    (hinv : OptSigInv stOpt) (hfresh : ∀ s ∈ stateSetups stOpt, s.id < idBase) :
    OptSigInv (analyzeStep symbol df_daily df_weekly today idBase stOpt) := by
  cases stOpt with
  | none =>
    simp only [analyzeStep]
    split
    · exact hinv
    · split
      · exact hinv
      · cases hf : _full_analysis symbol df_daily df_weekly today idBase with
        | none => exact trivial
        | some st => exact full_analysis_SigInv _ _ _ _ _ _ hf
  | some st =>
    simp only [analyzeStep]
    split
    · exact hinv
    · split
      · exact hinv
      · cases hd : _differential_analysis df_daily df_weekly st today idBase with
        | error e => exact hinv
        | ok t =>
          obtain ⟨st', upd, recs⟩ := t
          cases upd with
          | false => exact hinv
          | true => exact differential_SigInv _ _ _ _ _ hinv hfresh _ _ _ hd

theorem reachable_OptSigInv (stOpt : Option SymbolState) (h : Reachable stOpt) :
    OptSigInv stOpt := by
  induction h with
  | init => exact trivial
  | step symbol df_daily df_weekly today idBase st _ hfresh ih =>
    exact analyzeStep_OptSigInv symbol df_daily df_weekly today idBase st ih hfresh

theorem filter_beq_length_le_one : ∀ l : List Signal,
    (l.map (fun sg => sg.setup_id)).Nodup → ∀ sid : ℕ,
      (l.filter (fun sig => sig.setup_id == sid)).length ≤ 1 := by
  intro l
  induction l with
  | nil => intro _ sid; simp
  | cons x xs ih =>
    intro hnd sid
    rw [List.map_cons, List.nodup_cons] at hnd
    rw [List.filter_cons]
    by_cases hx : (x.setup_id == sid) = true
    · rw [if_pos hx]
      have hxs : xs.filter (fun sig => sig.setup_id == sid) = [] := by
        rw [List.filter_eq_nil_iff]
        intro a ha hbeq
        apply hnd.1
        have h1 : a.setup_id = sid := beq_iff_eq.mp hbeq
        have h2 : x.setup_id = sid := beq_iff_eq.mp hx
        rw [h2, ← h1]
        exact List.mem_map_of_mem _ ha
      rw [hxs]
      simp
    · rw [if_neg hx]
      exact ih hnd.2 sid

/-- Claim C2 (corrected): in every reachable persisted per-symbol state, each
setup has at most one signal whose `setup_id` matches it, and every *setup*
referenced by a signal has status `consumed`.  The claim's further part —
that every *gap* sharing the signal's `setup_id` is `consumed` — fails on the
full-history path (see the counterexample): gaps of the same setup examined
before the breaking gap keep their `active`/`violated` status, and the
breaking gap itself is dropped from the stored list by the `break`. -/
theorem C2_one_signal_per_setup (st : SymbolState) (h : Reachable (some st)) :
    (∀ sid : ℕ, (st.signals.filter (fun sig => sig.setup_id == sid)).length ≤ 1) ∧
    (∀ sig ∈ st.signals, ∀ s ∈ st.setups, s.id = sig.setup_id →
      s.status = EntStatus.consumed) := by
  have hinv : SigInv st := reachable_OptSigInv (some st) h
  obtain ⟨-, hnd, hcons, -⟩ := hinv
  exact ⟨filter_beq_length_le_one st.signals hnd, hcons⟩

theorem analyzeStep_exDf2 :
    analyzeStep "EX" exDf2 exW2 1100 0 none = some stEx2 := by decide!

theorem reachable_stEx2 : Reachable (some stEx2) := by
  have h := Reachable.step "EX" exDf2 exW2 1100 0 none Reachable.init
    (fun s hs => absurd hs (List.not_mem_nil s))
  rwa [analyzeStep_exDf2] at h

/-- The state `stEx2` is reachable (one full-history run on `exDf2`), carries
the signal of gap B under setup 1000, yet stores gap A with the same
`setup_id` in status `violated`, not `consumed` — refuting the all-gaps-
consumed part of the claim. -/
theorem C2_counterexample :
    Reachable (some stEx2) ∧
    stEx2.signals.map (fun sg => sg.setup_id) = [1000] ∧
    ∃ f ∈ stEx2.fvgs, f.setup_id = 1000 ∧ f.status ≠ EntStatus.consumed :=
  ⟨reachable_stEx2, by decide!, by decide!⟩

theorem C2_one_signal_per_setup_witness :
    (∀ sid : ℕ,
      (stEx2.signals.filter (fun sig => sig.setup_id == sid)).length ≤ 1) ∧
    (∀ sig ∈ stEx2.signals, ∀ s ∈ stEx2.setups, s.id = sig.setup_id →
      s.status = EntStatus.consumed) :=
  C2_one_signal_per_setup stEx2 reachable_stEx2
end HWB
